import Mathlib

/-!
Verification of the wgbot provisioning/reconciliation core.

This file shallowly embeds the record store (`database.py`), the remote
gateway wrapper (`wg_api.py`), the provisioning orchestrator
(`bot.py:create_or_restore_peer_for_user` and the payment handlers), the
expiry sweep (`bot.py:check_expired_peers`) and the webhook endpoint
(`webhook_server.py:yookassa_webhook`), and proves or refutes the frozen
claims about them.

Modelling conventions:
* Time is an integer number of days (both `datetime('now', '+N days')` in
  SQL and `timedelta(days=N)` in Python add whole days, so a single unit
  is uniform).  `now` is always passed explicitly.
* SQLite TEXT/uuid identifiers in `peer_id` / `job_id` columns are
  modelled by `Ident`: `Ident.pending n` stands for the staged
  placeholder string `f"pending_peer_{uuid4}"` (resp. `pending_job_`),
  where the tag `n` is drawn from a per-database counter modelling the
  freshness of `uuid.uuid4()`; `Ident.real s` stands for any
  non-placeholder identifier returned by the remote gateway.
* SQL `NULL` is `Option.none`; Python truthiness of strings is modelled
  where the code relies on it.
* The UNIQUE constraints of the `peers` table (peer_name, peer_id,
  job_id) are modelled by explicit guards: a statement that would
  violate them leaves the database unchanged and reports failure, which
  is what the `sqlite3.IntegrityError` / generic `Exception` handlers in
  `database.py` do.
-/

namespace WGBot

/-- An identifier stored in the `peer_id` or `job_id` column: either a
staged pending placeholder (`pending_peer_<uuid>` / `pending_job_<uuid>`,
the uuid freshness being modelled by the tag drawn from `Db.nextTag`) or
a real remote identifier. -/
inductive Ident where
  | pending (tag : Nat)
  | real (s : String)
deriving DecidableEq, Repr

/-- True exactly on staged placeholder identifiers. -/
def Ident.isPending : Ident → Bool
  | .pending _ => true
  | .real _ => false

/-- Bounds the placeholder tag: real identifiers impose no bound. -/
def Ident.tagLt : Ident → Nat → Bool
  | .pending t, n => Nat.blt t n
  | .real _, _ => true

/-- One row of the `peers` table (`database.py:init_database`). -/
structure PeerRow where
  rowId : Nat
  peer_name : String
  peer_id : Ident
  job_id : Ident
  telegram_user_id : Int
  telegram_username : String
  created_at : Int
  expire_date : Int
  is_active : Bool
  payment_status : String
  stars_paid : Int
  last_payment_date : Option Int
  notification_sent : Bool
  expired_notification_sent : Bool
  tariff_key : Option String
  payment_method : Option String
  rub_paid : Int
deriving DecidableEq, Repr

/-- One row of the `payments` table. -/
structure PaymentRow where
  payment_id : String
  user_id : Int
  amount : Int
  status : String
  payment_method : Option String
  tariff_key : Option String
deriving DecidableEq, Repr

/-- The record store: the `peers` and `payments` tables plus the
AUTOINCREMENT row-id counter and the uuid-freshness counter used for
staged placeholders. -/
structure Db where
  peers : List PeerRow
  payments : List PaymentRow
  nextRowId : Nat
  nextTag : Nat
deriving DecidableEq, Repr

/-- The snapshot of previous field values captured by
`Database.stage_peer_record` in update mode (the `previous` dict). -/
structure Previous where
  peer_name : String
  peer_id : Ident
  job_id : Ident
  telegram_username : String
  expire_date : Int
  payment_status : String
  tariff_key : Option String
  payment_method : Option String
  rub_paid : Int
deriving DecidableEq, Repr

/-- Mode of a staged write. -/
inductive StageMode where
  | create
  | update
deriving DecidableEq, Repr

/-- The stage handle returned by `Database.stage_peer_record`. -/
structure StageInfo where
  mode : StageMode
  pending_peer_id : Ident
  pending_job_id : Ident
  previous : Option Previous
deriving DecidableEq, Repr

/-- `Database.get_peer_by_telegram_id`: first row with matching user id
and `is_active = 1`. -/
def Db.findActive (db : Db) (uid : Int) : Option PeerRow :=
  db.peers.find? (fun r => r.telegram_user_id == uid && r.is_active)

/-- Snapshot of a row into the `previous` dict of a stage handle
(`database.py:267-277`). -/
def snapshotOf (r : PeerRow) : Previous :=
  { peer_name := r.peer_name
    peer_id := r.peer_id
    job_id := r.job_id
    telegram_username := r.telegram_username
    expire_date := r.expire_date
    payment_status := r.payment_status
    tariff_key := r.tariff_key
    payment_method := r.payment_method
    rub_paid := r.rub_paid }

/-- The SET clause shared by the staging UPDATE (`database.py:234-261`)
and the finalizing UPDATE (`database.py:337-369`): both write the same
nine columns, with COALESCE on `tariff_key` / `payment_method` and a
CASE keeping `rub_paid` when the argument is NULL. -/
def peerUpdateSet (peer_name : String) (peer_id job_id : Ident)
    (telegram_username : String) (expire_date : Int) (payment_status : String)
    (tariff_key payment_method : Option String) (rub_paid : Option Int)
    (r : PeerRow) : PeerRow :=
  { r with
      peer_name := peer_name
      peer_id := peer_id
      job_id := job_id
      telegram_username := telegram_username
      expire_date := expire_date
      payment_status := payment_status
      tariff_key := tariff_key.orElse (fun _ => r.tariff_key)
      payment_method := payment_method.orElse (fun _ => r.payment_method)
      rub_paid := rub_paid.getD r.rub_paid }

/-- The row INSERTed by the staging path (`database.py:280-301`):
`is_active = 1`, `stars_paid = 0`, NULL last payment, both notification
flags at their 0 default, `rub_paid` defaulting to 0. -/
def stageInsertRow (rowId : Nat) (peer_name : String) (pendingPeer pendingJob : Ident)
    (telegram_user_id : Int) (telegram_username : String)
    (created_at expire_date : Int) (payment_status : String)
    (tariff_key payment_method : Option String) (rub_paid : Option Int) : PeerRow :=
  { rowId := rowId
    peer_name := peer_name
    peer_id := pendingPeer
    job_id := pendingJob
    telegram_user_id := telegram_user_id
    telegram_username := telegram_username
    created_at := created_at
    expire_date := expire_date
    is_active := true
    payment_status := payment_status
    stars_paid := 0
    last_payment_date := none
    notification_sent := false
    expired_notification_sent := false
    tariff_key := tariff_key
    payment_method := payment_method
    rub_paid := rub_paid.getD 0 }

/-- The SET clause of the rollback UPDATE (`database.py:413-444`): every
one of the nine captured columns is written back verbatim (no COALESCE). -/
def restoreSet (prev : Previous) (r : PeerRow) : PeerRow :=
  { r with
      peer_name := prev.peer_name
      peer_id := prev.peer_id
      job_id := prev.job_id
      telegram_username := prev.telegram_username
      expire_date := prev.expire_date
      payment_status := prev.payment_status
      tariff_key := prev.tariff_key
      payment_method := prev.payment_method
      rub_paid := prev.rub_paid }

/-- `Database.stage_peer_record` (`database.py:204-310`).  Looks up the
active row of the user; if present, updates it in place with the two
fresh pending placeholders (capturing the previous field values),
otherwise inserts a new active row carrying the placeholders.  A UNIQUE
violation on `peer_name` makes the statement fail and the function
return `none` with the database untouched (the `sqlite3.IntegrityError`
branch). -/
def Db.stage_peer_record (db : Db) (peer_name : String) (telegram_user_id : Int)
    (telegram_username : String) (expire_date : Int) (payment_status : String)
    (tariff_key : Option String) (payment_method : Option String)
    (rub_paid : Option Int) (now : Int) : Db × Option StageInfo :=
  let pendingPeer := Ident.pending db.nextTag
  let pendingJob := Ident.pending (db.nextTag + 1)
  match db.findActive telegram_user_id with
  | some existing =>
      if db.peers.any (fun r => r.rowId != existing.rowId && r.peer_name == peer_name) then
        (db, none)
      else
        ({ db with
            peers := db.peers.map (fun r =>
              if r.rowId == existing.rowId then
                peerUpdateSet peer_name pendingPeer pendingJob telegram_username
                  expire_date payment_status tariff_key payment_method rub_paid r
              else r)
            nextTag := db.nextTag + 2 },
         some { mode := .update
                pending_peer_id := pendingPeer
                pending_job_id := pendingJob
                previous := some (snapshotOf existing) })
  | none =>
      if db.peers.any (fun r => r.peer_name == peer_name) then
        (db, none)
      else
        ({ db with
            peers := db.peers ++
              [stageInsertRow db.nextRowId peer_name pendingPeer pendingJob
                telegram_user_id telegram_username now expire_date payment_status
                tariff_key payment_method rub_paid]
            nextRowId := db.nextRowId + 1
            nextTag := db.nextTag + 2 },
         some { mode := .create
                pending_peer_id := pendingPeer
                pending_job_id := pendingJob
                previous := none })

/-- The WHERE clause shared by finalize and rollback: match by user id
and both placeholders on an active row. -/
def stageMatches (uid : Int) (st : StageInfo) (r : PeerRow) : Bool :=
  r.telegram_user_id == uid && r.peer_id == st.pending_peer_id &&
    r.job_id == st.pending_job_id && r.is_active

/-- `Database.finalize_staged_peer` (`database.py:312-385`): replace the
placeholders of the staged row with the real identifiers and the
effective expiry.  Fails (database untouched) when the UPDATE would
violate a UNIQUE column against a row not being updated, or when no row
matches the placeholders (`rowcount <= 0`). -/
def Db.finalize_staged_peer (db : Db) (telegram_user_id : Int) (st : StageInfo)
    (peer_name : String) (peer_id : Ident) (job_id : Ident) (expire_date : Int)
    (telegram_username : String) (payment_status : String)
    (tariff_key : Option String) (payment_method : Option String)
    (rub_paid : Option Int) : Db × Bool :=
  if db.peers.any (fun r => !(stageMatches telegram_user_id st r) &&
      (r.peer_name == peer_name || r.peer_id == peer_id || r.job_id == job_id)) then
    (db, false)
  else
    ({ db with
        peers := db.peers.map (fun r =>
          if stageMatches telegram_user_id st r then
            peerUpdateSet peer_name peer_id job_id telegram_username expire_date
              payment_status tariff_key payment_method rub_paid r
          else r) },
     db.peers.any (stageMatches telegram_user_id st))

/-- `Database.rollback_staged_peer` (`database.py:387-451`): in create
mode delete the rows matching the placeholders; in update mode restore
every captured previous field value on the matching row.  An update-mode
handle without a `previous` snapshot would write NULL into NOT NULL
columns, which the exception handler turns into a failed no-op; a UNIQUE
violation of the restored values against another row likewise fails. -/
def Db.rollback_staged_peer (db : Db) (telegram_user_id : Int)
    (st : StageInfo) : Db × Bool :=
  match st.mode with
  | .create =>
      ({ db with peers := db.peers.filter (fun r => !(stageMatches telegram_user_id st r)) },
       db.peers.any (stageMatches telegram_user_id st))
  | .update =>
      match st.previous with
      | none => (db, false)
      | some prev =>
          if db.peers.any (fun r => !(stageMatches telegram_user_id st r) &&
              (r.peer_name == prev.peer_name || r.peer_id == prev.peer_id ||
                r.job_id == prev.job_id)) then
            (db, false)
          else
            ({ db with
                peers := db.peers.map (fun r =>
                  if stageMatches telegram_user_id st r then restoreSet prev r
                  else r) },
             db.peers.any (stageMatches telegram_user_id st))

/-- `Database.add_peer` (`database.py:132-202`): unconditional INSERT of
a fresh active row; only a UNIQUE violation on peer_name / peer_id /
job_id makes it fail. -/
def Db.add_peer (db : Db) (peer_name : String) (peer_id : Ident) (job_id : Ident)
    (telegram_user_id : Int) (telegram_username : String) (expire_date : Int)
    (payment_status : String) (stars_paid : Int) (tariff_key : Option String)
    (payment_method : Option String) (rub_paid : Int) (now : Int) : Db × Bool :=
  if db.peers.any (fun r => r.peer_name == peer_name || r.peer_id == peer_id ||
      r.job_id == job_id) then
    (db, false)
  else
    ({ db with
        peers := db.peers ++
          [{ rowId := db.nextRowId
             peer_name := peer_name
             peer_id := peer_id
             job_id := job_id
             telegram_user_id := telegram_user_id
             telegram_username := telegram_username
             created_at := now
             expire_date := expire_date
             is_active := true
             payment_status := payment_status
             stars_paid := stars_paid
             last_payment_date := none
             notification_sent := false
             expired_notification_sent := false
             tariff_key := tariff_key
             payment_method := payment_method
             rub_paid := rub_paid }]
        nextRowId := db.nextRowId + 1 },
     true)

/-- `Database.delete_peer` (`database.py:486-510`): soft delete by name. -/
def Db.delete_peer (db : Db) (peer_name : String) : Db × Bool :=
  ({ db with
      peers := db.peers.map (fun r =>
        if r.peer_name == peer_name then { r with is_active := false } else r) },
   db.peers.any (fun r => r.peer_name == peer_name))

/-- `Database.extend_access` (`database.py:727-793`): read the current
expiry of the first active row of the user; extend from `now` when it
already lies in the past, otherwise from the stored date; write the new
date and clear both notification flags on the active rows of the user. -/
def Db.extend_access (db : Db) (now : Int) (telegram_user_id : Int)
    (days : Int) : Db × Bool × Option Int :=
  match db.findActive telegram_user_id with
  | none => (db, false, none)
  | some row =>
      let newDate := if row.expire_date < now then now + days else row.expire_date + days
      ({ db with
          peers := db.peers.map (fun r =>
            if r.telegram_user_id == telegram_user_id && r.is_active then
              { r with
                  expire_date := newDate
                  notification_sent := false
                  expired_notification_sent := false }
            else r) },
       true, some newDate)

/-- `Database.update_payment_status` (`database.py:642-725`): update the
payment columns of the active rows of the user, with the column set
depending on the payment method. -/
def Db.update_payment_status (db : Db) (now : Int) (telegram_user_id : Int)
    (payment_status : String) (amount_paid : Int) (payment_method : Option String)
    (tariff_key : Option String) : Db × Bool :=
  ({ db with
      peers := db.peers.map (fun r =>
        if r.telegram_user_id == telegram_user_id && r.is_active then
          match payment_method with
          | some "stars" =>
              { r with
                  payment_status := payment_status
                  stars_paid := amount_paid
                  last_payment_date := some now
                  payment_method := payment_method
                  tariff_key := tariff_key }
          | some "yookassa" =>
              { r with
                  payment_status := payment_status
                  rub_paid := amount_paid
                  last_payment_date := some now
                  payment_method := payment_method
                  tariff_key := tariff_key }
          | _ =>
              { r with
                  payment_status := payment_status
                  stars_paid := amount_paid
                  last_payment_date := some now }
        else r) },
   db.peers.any (fun r => r.telegram_user_id == telegram_user_id && r.is_active))

/-- `Database.get_expired_peers` (`database.py:576-586`): active rows
past expiry whose one-shot expired flag is still unset.  Note the SQL
has no `payment_status` filter. -/
def Db.get_expired_peers (db : Db) (now : Int) : List PeerRow :=
  db.peers.filter (fun r =>
    r.is_active && decide (r.expire_date < now) && !r.expired_notification_sent)

/-- `Database.mark_expired_notification_sent` (`database.py:915-936`). -/
def Db.mark_expired_notification_sent (db : Db) (telegram_user_id : Int) : Db × Bool :=
  ({ db with
      peers := db.peers.map (fun r =>
        if r.telegram_user_id == telegram_user_id && r.is_active then
          { r with expired_notification_sent := true }
        else r) },
   db.peers.any (fun r => r.telegram_user_id == telegram_user_id && r.is_active))

/-- `Database.add_payment` (`database.py:938-991`): INSERT with UNIQUE
payment_id; the new row starts in the default `pending` status. -/
def Db.add_payment (db : Db) (payment_id : String) (user_id : Int) (amount : Int)
    (payment_method : Option String) (tariff_key : Option String) : Db × Bool :=
  if db.payments.any (fun p => p.payment_id == payment_id) then
    (db, false)
  else
    ({ db with
        payments := db.payments ++
          [{ payment_id := payment_id
             user_id := user_id
             amount := amount
             status := "pending"
             payment_method := payment_method
             tariff_key := tariff_key }] },
     true)

/-- `Database.update_payment_status_by_id` (`database.py:993-1033`):
validates the status against the allowed list, then updates the matching
payment row unconditionally (no check of the previous status). -/
def Db.update_payment_status_by_id (db : Db) (payment_id : String)
    (status : String) : Db × Bool :=
  if status == "pending" || status == "succeeded" || status == "canceled" ||
      status == "refunded" then
    ({ db with
        payments := db.payments.map (fun p =>
          if p.payment_id == payment_id then { p with status := status } else p) },
     db.payments.any (fun p => p.payment_id == payment_id))
  else
    (db, false)

/-! ## Remote gateway wrapper (`wg_api.py`) -/

/-- `config.py:PEER_EXPIRY_DAYS`, the default expiry period. -/
def PEER_EXPIRY_DAYS : Int := 30

/-- The `expire_date_str` argument of `create_restrict_job`: Python
passes either `None`, a string `strptime` rejects, or a string parsing
to the timestamp `t`. -/
inductive DateArg where
  | missing
  | unparsable
  | parsed (t : Int)
deriving DecidableEq, Repr

/-- The date normalization inside `WGDashboardAPI.create_restrict_job`
(`wg_api.py:107-125`): a missing or unparseable date, or one not in the
future, is replaced by `now + PEER_EXPIRY_DAYS`. -/
def normalizeExpire (now : Int) (arg : DateArg) : Int :=
  match arg with
  | .missing => now + PEER_EXPIRY_DAYS
  | .unparsable => now + PEER_EXPIRY_DAYS
  | .parsed t => if t ≤ now then now + PEER_EXPIRY_DAYS else t

/-- The schedule-job request body built by `create_restrict_job`
(`wg_api.py:129-141`); `value` is the date both `Value` and `ExpireDate`
are bound to. -/
structure JobRequest where
  jobId : String
  peer : String
  value : Int
deriving DecidableEq, Repr

/-- `WGDashboardAPI.create_restrict_job` (`wg_api.py:96-144`) up to the
HTTP POST: it generates a job id, normalizes the requested date, and
returns the request body together with the job id and the effective
date.  The uuid is passed in as `jobId`. -/
def create_restrict_job (now : Int) (peerId : String) (jobId : String)
    (arg : DateArg) : JobRequest × String × Int :=
  let eff := normalizeExpire now arg
  ({ jobId := jobId, peer := peerId, value := eff }, jobId, eff)

/-- What one GET of the `downloadPeer` endpoint inside
`check_peer_exists` looks like to the wrapper: the request (or the
`.json()` decode, `json = none`) raised, or a response with a status
code and, when decoded, a body with a `status` flag and possibly-null
`data`. -/
inductive PeerCheckWire where
  | raised
  | resp (statusCode : Nat) (json : Option (Bool × Bool))
deriving DecidableEq, Repr

/-- `WGDashboardAPI.check_peer_exists` (`wg_api.py:202-236`), decision
for decision: empty peer id is `False`; a 200 response whose JSON has
`status == True` and non-null `data` is `True`; every other case —
including the `except Exception` branch for an errored request — is
`False`. -/
def check_peer_exists (peerId : String) (wire : PeerCheckWire) : Bool :=
  if peerId == "" then false
  else
    match wire with
    | .raised => false
    | .resp statusCode json =>
        if statusCode == 200 then
          match json with
          | none => false
          | some (status, hasData) => status && hasData
        else false

/-- Outcome of `WGDashboardAPI.allow_access_peer` as seen by its caller:
the request raised, or it returned a body whose `status` field is the
given boolean. -/
inductive AllowOutcome where
  | raised
  | resp (status : Bool)
deriving DecidableEq, Repr

/-- The three-way peer-status resolution in the payment handlers
(`bot.py:1276-1294`, `webhook_server.py:181-199`): `peer_exists` starts
as `None`, is assigned the result of `check_peer_exists` (which never
raises, so the `except` branch around it is unreachable), and is forced
to `True` when `allow_access_peer` returns `status: true`. -/
def resolve_extension_peer_status (peerId : String) (wire : PeerCheckWire)
    (allow : AllowOutcome) : Option Bool :=
  let peer_exists : Option Bool := some (check_peer_exists peerId wire)
  match allow with
  | .resp true => some true
  | _ => peer_exists

/-- The branch the payment handlers take on the resolved status
(`bot.py:1295-1362`): `True` → extend the remote job in place, `False` →
run the full staged create/restore, `None` → report a transient
"try again" failure without touching anything. -/
inductive ExtendAction where
  | extendInPlace
  | recreate
  | reportUnknown
deriving DecidableEq, Repr

/-- Dispatch of `process_successful_payment` on the three-valued
`peer_exists`. -/
def extension_dispatch : Option Bool → ExtendAction
  | some true => ExtendAction.extendInPlace
  | some false => ExtendAction.recreate
  | none => ExtendAction.reportUnknown

/-! ## Orchestrator: `bot.py:create_or_restore_peer_for_user` -/

/-- `utils.generate_peer_name` (`utils.py:8-30`). -/
def generate_peer_name (telegram_username : Option String) (user_id : Int) : String :=
  let peer_name :=
    match telegram_username with
    | some u => if u == "" then "user_" ++ toString user_id else u ++ "_" ++ toString user_id
    | none => "user_" ++ toString user_id
  if peer_name.length > 50 then peer_name.take 50 else peer_name

/-- The `days` field of `config.get_tariffs()`
(`config.py:40-81`) looked up with the `.get(tariff_key, {})`
/ `.get("days", 30)` defaulting used by the callers. -/
def tariffDays : Option String → Int
  | some "14_days" => 14
  | some "30_days" => 30
  | some "90_days" => 90
  | some "180_days" => 180
  | _ => 30

/-- Outcome of `wg_api.add_peer` as seen by the orchestrator: the
request raised, the result carried no `id` key, or it returned a peer
id. -/
inductive AddPeerOutcome where
  | raised
  | noId
  | ok (peerId : String)
deriving DecidableEq, Repr

/-- Outcome of the `savePeerScheduleJob` POST inside
`create_restrict_job`: raised, returned `status: false`, or succeeded. -/
inductive JobApiOutcome where
  | raised
  | statusFalse
  | ok
deriving DecidableEq, Repr

/-- Outcome of one `download_peer_config` attempt: the call raised, or
it returned the configuration text (possibly empty). -/
inductive DownloadOutcome where
  | raised
  | ok (content : String)
deriving DecidableEq, Repr

/-- The remote world as the orchestrator observes it during one run:
outcomes of the gateway calls it makes, the uuid generated for the job,
the clients.json write outcome, and the per-attempt download outcomes. -/
structure RemoteEnv where
  addPeer : AddPeerOutcome
  jobApi : JobApiOutcome
  jobIdValue : String
  clientsJsonOk : Bool
  download : Nat → DownloadOutcome

/-- The remote calls issued during one run (for frame conditions). -/
structure Trace where
  addPeerCalls : List String
  jobsIssued : List JobRequest
  deletePeerCalls : List String
deriving DecidableEq, Repr

/-- The `(success, error_message, config_content)` triple returned by
the orchestrator. -/
structure FlowResult where
  success : Bool
  message : String
  config : Option String
deriving DecidableEq, Repr

/-- Full observable outcome of one orchestrator run. -/
structure FlowOut where
  db : Db
  trace : Trace
  result : FlowResult

/-- The target expiry chosen at `bot.py:95-108`: reuse the stored date
of an existing active grant, otherwise `now` plus the tariff period. -/
def flowTargetExpire (db : Db) (now : Int) (user_id : Int)
    (tariff_key : Option String) : Int :=
  match db.findActive user_id with
  | some p => p.expire_date
  | none => now + tariffDays tariff_key

/-- The bounded download-retry loop at `bot.py:190-203`: up to 10
attempts, stopping at the first truthy (non-empty) content; exceptions
and empty contents just move to the next attempt. -/
def firstNonEmptyConfig (d : Nat → DownloadOutcome) : List Nat → Option String
  | [] => none
  | i :: rest =>
      match d i with
      | .ok s => if s == "" then firstNonEmptyConfig d rest else some s
      | .raised => firstNonEmptyConfig d rest

/-- `download_with_retries d` is the content obtained by the 10-attempt
loop, `none` when every attempt raised or returned empty content. -/
def download_with_retries (d : Nat → DownloadOutcome) : Option String :=
  firstNonEmptyConfig d (List.range 10)

/-- The post-finalization download phase of the orchestrator
(`bot.py:187-207`): retry the config download, and fail with the
timeout message when no attempt produced content. -/
def downloadPhase (db : Db) (t : Trace) (d : Nat → DownloadOutcome) : FlowOut :=
  match download_with_retries d with
  | none =>
      { db := db, trace := t
        result := { success := false
                    message := "Не удалось скачать конфигурацию (превышено время ожидания 20с)"
                    config := none } }
  | some s =>
      { db := db, trace := t
        result := { success := true, message := "", config := some s } }

/-- The compensation path of the orchestrator (`bot.py:173-185`): delete
the remote peer when one was created, then roll back the staged row, and
report the uniform creation/restoration failure. -/
def compensate (db : Db) (t : Trace) (user_id : Int) (st : StageInfo)
    (createdPeer : Option String) : FlowOut :=
  let t := { t with deletePeerCalls := t.deletePeerCalls ++ createdPeer.toList }
  let db := (db.rollback_staged_peer user_id st).1
  { db := db, trace := t
    result := { success := false
                message := "Ошибка при создании/восстановлении доступа"
                config := none } }

/-- `bot.py:create_or_restore_peer_for_user` (`bot.py:87-210`): the
staged create/restore protocol.  Stage the row with placeholders, create
the remote peer, create the remote restriction job, finalize the row
with the real identifiers and the effective expiry, write clients.json,
then retry the config download; any failure after staging triggers
`compensate`.  The clients.json and custom-peers side channels have no
record-store effect and are modelled by the boolean `clientsJsonOk`. -/
def create_or_restore_peer_for_user (db : Db) (now : Int) (user_id : Int)
    (username : Option String) (tariff_key : Option String)
    (env : RemoteEnv) : FlowOut :=
  let target_expire_date := flowTargetExpire db now user_id tariff_key
  let peer_name := generate_peer_name username user_id
  match Db.stage_peer_record db peer_name user_id (username.getD "")
      target_expire_date "paid" tariff_key none none now with
  | (db1, none) =>
      { db := db1, trace := { addPeerCalls := [], jobsIssued := [], deletePeerCalls := [] }
        result := { success := false
                    message := "Ошибка при сохранении клиента в БД"
                    config := none } }
  | (db1, some st) =>
      let t0 : Trace := { addPeerCalls := [peer_name], jobsIssued := [], deletePeerCalls := [] }
      match env.addPeer with
      | .raised => compensate db1 t0 user_id st none
      | .noId => compensate db1 t0 user_id st none
      | .ok pid =>
          let (jobReq, new_job_id, final_expire_date) :=
            create_restrict_job now pid env.jobIdValue (DateArg.parsed target_expire_date)
          let t1 := { t0 with jobsIssued := [jobReq] }
          match env.jobApi with
          | .raised => compensate db1 t1 user_id st (some pid)
          | .statusFalse => compensate db1 t1 user_id st (some pid)
          | .ok =>
              let (db2, finalized) := db1.finalize_staged_peer user_id st peer_name
                (Ident.real pid) (Ident.real new_job_id) final_expire_date
                (username.getD "") "paid" tariff_key none none
              if finalized then
                if env.clientsJsonOk then
                  downloadPhase db2 t1 env.download
                else compensate db2 t1 user_id st (some pid)
              else compensate db2 t1 user_id st (some pid)

/-! ## Payment confirmation (duplicate delivery) -/

/-- The extension step of `process_successful_payment` for a user who
already has a grant (`webhook_server.py:160-177`, `bot.py:1251-1267`):
mark the payment row `succeeded` (result ignored, no check of its
previous status) and unconditionally extend the grant by the tariff
period.  Nothing ties the extension to the payment id. -/
def confirm_payment_extend (db : Db) (now : Int) (payment_id : String)
    (user_id : Int) (tariff_key : Option String) : Db × Bool × Option Int :=
  let access_days := tariffDays tariff_key
  let db1 := (db.update_payment_status_by_id payment_id "succeeded").1
  db1.extend_access now user_id access_days

/-! ## Expiry sweep (`bot.py:check_expired_peers`) -/

/-- One iteration of the expired-grant part of the sweep
(`bot.py:1439-1453`): snapshot the expired unnotified rows, then for
each one send the notification and, only when sending succeeded, mark
the flag.  `sendOk u` tells whether the Telegram send to user `u`
succeeded; the returned list records the users that were marked. -/
def sweep_expired_once (db : Db) (now : Int) (sendOk : Int → Bool) : Db × List Int :=
  (db.get_expired_peers now).foldl
    (fun acc peer =>
      if sendOk peer.telegram_user_id then
        ((acc.1.mark_expired_notification_sent peer.telegram_user_id).1,
         acc.2 ++ [peer.telegram_user_id])
      else acc)
    (db, [])

/-! ## Webhook endpoint (`webhook_server.py:yookassa_webhook`) -/

/-- The payment-object shape the endpoint inspects: presence of the
`id` and `status` keys and the status value. -/
structure PaymentObj where
  hasId : Bool
  status : Option String
deriving DecidableEq, Repr

/-- A field of the webhook dict as the truthiness-based fallback chain
sees it: absent, present but falsy (null / empty / not a dict), or a
usable payment object. -/
inductive FieldVal where
  | absent
  | falsy
  | obj (o : PaymentObj)
deriving DecidableEq, Repr

/-- The parsed webhook body as the endpoint reads it: the `event` /
`event_type` / `status` fields, the `object` / `payment` payloads, and
whether the root dict itself carries `id` and `status` keys. -/
structure WebhookBody where
  event : Option String
  event_type_alt : Option String
  status : Option String
  objectData : FieldVal
  paymentData : FieldVal
  rootHasIdAndStatus : Bool
deriving DecidableEq, Repr

/-- One incoming request to `/webhook/yookassa` as the handler observes
it: the signature header (absent, or present and valid/invalid — the
handler only logs this), the parse outcome, and whether some statement
in the handler body raised an unhandled exception.  No statement inside
the `try` block raises `fastapi.HTTPException`, so the `except
HTTPException: raise` branch is dead and is not an input case. -/
structure WebhookReq where
  signature : Option Bool
  parsed : Option WebhookBody
  raisesUnhandled : Bool

/-- An HTTP response: status code plus the payload tag (`ok`/`error`). -/
structure WebhookResp where
  statusCode : Nat
  tag : String
deriving DecidableEq, Repr

/-- The event-type inference from a payment status
(`webhook_server.py:617-626` and `644-653`). -/
def inferEventFromStatus (status : String) : String :=
  if status == "succeeded" then "payment.succeeded"
  else if status == "canceled" then "payment.canceled"
  else if status == "waiting_for_capture" then "payment.waiting_for_capture"
  else ""

/-- `yookassa_webhook` (`webhook_server.py:561-707`), branch for branch:
invalid/missing signatures are only logged; a failed parse, a missing
object, an undeterminable event type, an unknown event and an unhandled
exception all answer with status 200 carrying an error payload, and
every dispatched event answers 200 ok.  (The inner `process_*`
coroutines catch all their exceptions; anything escaping is the
`raisesUnhandled` case.) -/
def yookassa_webhook (req : WebhookReq) : WebhookResp :=
  if req.raisesUnhandled then { statusCode := 200, tag := "error" }
  else
    match req.parsed with
    | none => { statusCode := 200, tag := "error" }
    | some w =>
        let et0 := (w.event.getD "")
        let et1 := if et0 == "" then w.event_type_alt.getD "" else et0
        let et2 := if et1 == "" then inferEventFromStatus (w.status.getD "") else et1
        let rootObj : PaymentObj := { hasId := w.rootHasIdAndStatus, status := w.status }
        let ed0 : Option PaymentObj :=
          match w.objectData with
          | .obj o => some o
          | _ => none
        let ed1 : Option PaymentObj :=
          match ed0 with
          | some o => some o
          | none =>
              match w.paymentData with
              | .absent => some rootObj
              | .falsy => none
              | .obj o => some o
        let ed2 : Option PaymentObj :=
          match ed1 with
          | some o => some o
          | none => if w.rootHasIdAndStatus then some rootObj else none
        match ed2 with
        | none => { statusCode := 200, tag := "error" }
        | some obj =>
            let et3 := if et2 == "" then inferEventFromStatus (obj.status.getD "") else et2
            if et3 == "" then { statusCode := 200, tag := "error" }
            else { statusCode := 200, tag := "ok" }

/-! ## Invariants -/

/-- Number of active rows of a user. -/
def Db.activeCount (db : Db) (uid : Int) : Nat :=
  (db.peers.filter (fun r => r.telegram_user_id == uid && r.is_active)).length

/-- Well-formedness a real SQLite state always has: the PRIMARY KEY and
the three UNIQUE columns are pairwise distinct across rows, and every
placeholder tag in the table was drawn from the uuid counter (two
`uuid4` values never collide). -/
structure Db.Wf (db : Db) : Prop where
  uniq : db.peers.Pairwise (fun a b =>
    a.rowId ≠ b.rowId ∧ a.peer_name ≠ b.peer_name ∧ a.peer_id ≠ b.peer_id ∧
      a.job_id ≠ b.job_id)
  tags : ∀ r ∈ db.peers, r.peer_id.tagLt db.nextTag = true ∧
    r.job_id.tagLt db.nextTag = true

/-- One record-store operation, as invoked through the public
`Database` methods other than `add_peer`. -/
inductive DbOp where
  | stageRec (peer_name : String) (uid : Int) (uname : String) (expire : Int)
      (ps : String) (tk pm : Option String) (rp : Option Int) (now : Int)
  | finalizeRec (uid : Int) (st : StageInfo) (peer_name : String) (pid jid : Ident)
      (expire : Int) (uname ps : String) (tk pm : Option String) (rp : Option Int)
  | rollbackRec (uid : Int) (st : StageInfo)
  | deleteRec (peer_name : String)
  | extendRec (now : Int) (uid : Int) (days : Int)
  | updPayRec (now : Int) (uid : Int) (ps : String) (amount : Int) (pm tk : Option String)

/-- Interpretation of one record-store operation. -/
def applyOp (db : Db) : DbOp → Db
  | .stageRec pn uid un exp ps tk pm rp now =>
      (db.stage_peer_record pn uid un exp ps tk pm rp now).1
  | .finalizeRec uid st pn pid jid exp un ps tk pm rp =>
      (db.finalize_staged_peer uid st pn pid jid exp un ps tk pm rp).1
  | .rollbackRec uid st => (db.rollback_staged_peer uid st).1
  | .deleteRec pn => (db.delete_peer pn).1
  | .extendRec now uid days => (db.extend_access now uid days).1
  | .updPayRec now uid ps amount pm tk =>
      (db.update_payment_status now uid ps amount pm tk).1

/-! ## Concrete fixtures for witnesses -/

/-- A finalized paid grant row used as concrete witness data. -/
def sampleRow : PeerRow :=
  { rowId := 1
    peer_name := "alice_7"
    peer_id := Ident.real "PK1"
    job_id := Ident.real "J1"
    telegram_user_id := 7
    telegram_username := "alice"
    created_at := 0
    expire_date := 100
    is_active := true
    payment_status := "paid"
    stars_paid := 0
    last_payment_date := none
    notification_sent := false
    expired_notification_sent := false
    tariff_key := some "30_days"
    payment_method := some "stars"
    rub_paid := 0 }

/-- A record store holding one finalized grant. -/
def sampleDb : Db :=
  { peers := [sampleRow], payments := [], nextRowId := 2, nextTag := 5 }

/-- A remote environment in which every gateway call succeeds. -/
def sampleEnv : RemoteEnv :=
  { addPeer := .ok "PK2"
    jobApi := .ok
    jobIdValue := "J2"
    clientsJsonOk := true
    download := fun _ => .ok "CONF" }

/-- The stage handle produced by staging over `sampleDb`. -/
def stC3 : StageInfo :=
  { mode := .update
    pending_peer_id := .pending 5
    pending_job_id := .pending 6
    previous := some (snapshotOf sampleRow) }

/-- The store state right after staging over `sampleDb`. -/
def db1C3 : Db :=
  (Db.stage_peer_record sampleDb "alice_7" 7 "alice" 200 "paid" none none none 0).1

/-- A store whose only row belongs to another user but already occupies
the peer name that user 1 would stage under (`generate_peer_name none 1
= "user_1"`), so the staging INSERT hits the UNIQUE(peer_name)
constraint. -/
def clashDb : Db :=
  { peers := [{ rowId := 1
                peer_name := "user_1"
                peer_id := Ident.real "PX"
                job_id := Ident.real "JX"
                telegram_user_id := 2
                telegram_username := "bob"
                created_at := 0
                expire_date := 50
                is_active := true
                payment_status := "paid"
                stars_paid := 0
                last_payment_date := none
                notification_sent := false
                expired_notification_sent := false
                tariff_key := none
                payment_method := none
                rub_paid := 0 }]
    payments := []
    nextRowId := 2
    nextTag := 0 }

/-- A store with one paid grant (expiry 100) and one pending payment
row, used to replay a duplicate webhook delivery. -/
def payDb : Db :=
  { peers := [sampleRow]
    payments := [{ payment_id := "pay1"
                   user_id := 7
                   amount := 30000
                   status := "pending"
                   payment_method := some "yookassa"
                   tariff_key := some "30_days" }]
    nextRowId := 2
    nextTag := 5 }

/-- An empty record store. -/
def emptyDb : Db := { peers := [], payments := [], nextRowId := 1, nextTag := 0 }

/-- First unconditional `add_peer` INSERT for user 1. -/
def addTwice1 : Db × Bool :=
  Db.add_peer emptyDb "a_1" (Ident.real "P1") (Ident.real "J1") 1 "a" 100 "paid" 0
    none none 0 0

/-- Second unconditional `add_peer` INSERT for the same user under a
different peer name and different remote identifiers. -/
def addTwice2 : Db × Bool :=
  Db.add_peer addTwice1.1 "b_1" (Ident.real "P2") (Ident.real "J2") 1 "a" 100 "paid" 0
    none none 0 0

/-- An expired, paid, not-yet-notified active grant. -/
def expiredRow : PeerRow :=
  { rowId := 1
    peer_name := "carol_9"
    peer_id := Ident.real "PK9"
    job_id := Ident.real "J9"
    telegram_user_id := 9
    telegram_username := "carol"
    created_at := 0
    expire_date := 10
    is_active := true
    payment_status := "paid"
    stars_paid := 0
    last_payment_date := none
    notification_sent := false
    expired_notification_sent := false
    tariff_key := some "30_days"
    payment_method := some "stars"
    rub_paid := 0 }

/-- A store holding one expired grant. -/
def expiredDb : Db :=
  { peers := [expiredRow], payments := [], nextRowId := 2, nextTag := 0 }

/-- Every active row of user `u` already carries the one-shot expired
flag. -/
def flaggedAll (db : Db) (u : Int) : Prop :=
  ∀ r ∈ db.peers, r.telegram_user_id = u → r.is_active = true →
    r.expired_notification_sent = true

/-! ## Helper lemmas -/

/-- A bounded placeholder tag never equals the placeholder at the bound. -/
theorem Ident.tagLt_ne_pending {i : Ident} {n : Nat} (h : i.tagLt n = true) :
    (i == Ident.pending n) = false := by
  cases i with
  | pending t =>
      simp only [Ident.tagLt, Nat.blt_eq] at h
      simp only [beq_eq_false_iff_ne, ne_eq, Ident.pending.injEq]
      exact Nat.ne_of_lt h
  | real s => rfl

/-- Two rows of a well-formed table sharing a row id are equal. -/
theorem Db.Wf.rowId_inj {db : Db} (hwf : db.Wf) {a b : PeerRow}
    (ha : a ∈ db.peers) (hb : b ∈ db.peers) (h : a.rowId = b.rowId) : a = b := by
  by_contra hne
  exact (hwf.uniq.forall
    (fun x y hxy => ⟨hxy.1.symm, hxy.2.1.symm, hxy.2.2.1.symm, hxy.2.2.2.symm⟩)
    ha hb hne).1 h

/-- A row whose placeholder tags are below the counter never matches a
stage handle carrying the counter placeholders. -/
theorem stageMatches_eq_false_of_tagLt {uid : Int} {n : Nat} {prev : Option Previous}
    {m : StageMode} {r : PeerRow} (h : r.peer_id.tagLt n = true) :
    stageMatches uid
      { mode := m, pending_peer_id := Ident.pending n,
        pending_job_id := Ident.pending (n + 1), previous := prev } r = false := by
  simp only [stageMatches, Bool.and_eq_false_iff]
  left
  left
  right
  exact Ident.tagLt_ne_pending h

/-- The row found by `get_peer_by_telegram_id` belongs to the table. -/
theorem findActive_some_mem {db : Db} {uid : Int} {r0 : PeerRow}
    (h : db.findActive uid = some r0) : r0 ∈ db.peers :=
  List.mem_of_find?_eq_some h

/-- The row found by `get_peer_by_telegram_id` is the user's active row. -/
theorem findActive_some_props {db : Db} {uid : Int} {r0 : PeerRow}
    (h : db.findActive uid = some r0) :
    r0.telegram_user_id = uid ∧ r0.is_active = true := by
  have hp := List.find?_some h
  simp only [Bool.and_eq_true, beq_iff_eq] at hp
  exact hp

/-- The staged update row matches its own stage handle. -/
theorem stageMatches_staged {uid : Int} {r0 : PeerRow} {pn un : String} {exp : Int}
    {ps : String} {tk pm : Option String} {rp : Option Int} {n : Nat} {prev : Option Previous}
    (huser : r0.telegram_user_id = uid) (hact : r0.is_active = true) :
    stageMatches uid
      { mode := .update, pending_peer_id := Ident.pending n,
        pending_job_id := Ident.pending (n + 1), previous := prev }
      (peerUpdateSet pn (Ident.pending n) (Ident.pending (n + 1)) un exp ps tk pm rp r0)
      = true := by
  simp [stageMatches, peerUpdateSet, huser, hact]

/-- Rolling back immediately after an update-mode staging restores the
table exactly: the staged row goes back to its captured snapshot and no
other row is touched. -/
theorem rollback_after_stage_update (db : Db) (uid : Int) (r0 : PeerRow)
    (pn un : String) (exp : Int) (ps : String) (tk pm : Option String) (rp : Option Int)
    (hwf : db.Wf) (hfind : db.findActive uid = some r0) :
    Db.rollback_staged_peer
      { db with
          peers := db.peers.map (fun r =>
            if r.rowId == r0.rowId then
              peerUpdateSet pn (Ident.pending db.nextTag) (Ident.pending (db.nextTag + 1))
                un exp ps tk pm rp r
            else r)
          nextTag := db.nextTag + 2 }
      uid
      { mode := .update
        pending_peer_id := Ident.pending db.nextTag
        pending_job_id := Ident.pending (db.nextTag + 1)
        previous := some (snapshotOf r0) } =
    ({ db with nextTag := db.nextTag + 2 }, true) := by
  have hmem : r0 ∈ db.peers := findActive_some_mem hfind
  have hprops := findActive_some_props hfind
  have hsym : Symmetric (fun a b : PeerRow =>
      a.rowId ≠ b.rowId ∧ a.peer_name ≠ b.peer_name ∧ a.peer_id ≠ b.peer_id ∧
        a.job_id ≠ b.job_id) :=
    fun _ _ hxy => ⟨hxy.1.symm, hxy.2.1.symm, hxy.2.2.1.symm, hxy.2.2.2.symm⟩
  -- the image of any original row under the staging map
  have himg : ∀ r ∈ db.peers,
      (if r.rowId == r0.rowId then
        peerUpdateSet pn (Ident.pending db.nextTag) (Ident.pending (db.nextTag + 1))
          un exp ps tk pm rp r
      else r) =
      (if r = r0 then
        peerUpdateSet pn (Ident.pending db.nextTag) (Ident.pending (db.nextTag + 1))
          un exp ps tk pm rp r0
      else r) := by
    intro r hr
    by_cases h : r.rowId = r0.rowId
    · have : r = r0 := hwf.rowId_inj hr hmem h
      simp [this]
    · have hne : r ≠ r0 := fun he => h (congrArg PeerRow.rowId he)
      simp [h, hne]
  unfold Db.rollback_staged_peer
  simp only []
  -- the uniqueness guard of the rollback UPDATE does not fire
  have hguard : (List.map (fun r =>
      if r.rowId == r0.rowId then
        peerUpdateSet pn (Ident.pending db.nextTag) (Ident.pending (db.nextTag + 1))
          un exp ps tk pm rp r
      else r) db.peers).any (fun r =>
        !(stageMatches uid
          { mode := .update
            pending_peer_id := Ident.pending db.nextTag
            pending_job_id := Ident.pending (db.nextTag + 1)
            previous := some (snapshotOf r0) } r) &&
        (r.peer_name == (snapshotOf r0).peer_name ||
          r.peer_id == (snapshotOf r0).peer_id ||
          r.job_id == (snapshotOf r0).job_id)) = false := by
    rw [List.any_eq_false]
    intro x hx
    rw [List.mem_map] at hx
    obtain ⟨r, hr, hxr⟩ := hx
    rw [himg r hr] at hxr
    by_cases hre : r = r0
    · subst hre
      rw [if_pos rfl] at hxr
      subst hxr
      simp [stageMatches_staged hprops.1 hprops.2]
    · rw [if_neg hre] at hxr
      subst hxr
      have hd := hwf.uniq.forall hsym hr hmem hre
      simp only [Bool.and_eq_true, Bool.not_eq_true', Bool.or_eq_true, not_and, not_or]
      intro _
      refine ⟨⟨?_, ?_⟩, ?_⟩ <;>
        simp [snapshotOf, beq_eq_false_iff_ne, hd.2.1, hd.2.2.1, hd.2.2.2]
  rw [hguard]
  simp only [Bool.false_eq_true, if_false, List.map_map, Prod.mk.injEq, Db.mk.injEq]
  refine ⟨⟨?_, trivial, trivial, trivial⟩, ?_⟩
  · -- the restore map undoes the staging map row by row
    have hcomp : ∀ r ∈ db.peers,
        ((fun r =>
          if stageMatches uid
            { mode := .update
              pending_peer_id := Ident.pending db.nextTag
              pending_job_id := Ident.pending (db.nextTag + 1)
              previous := some (snapshotOf r0) } r then
            restoreSet (snapshotOf r0) r
          else r) ∘ (fun r =>
          if r.rowId == r0.rowId then
            peerUpdateSet pn (Ident.pending db.nextTag) (Ident.pending (db.nextTag + 1))
              un exp ps tk pm rp r
          else r)) r = r := by
      intro r hr
      simp only [Function.comp_apply]
      rw [himg r hr]
      by_cases hre : r = r0
      · subst hre
        rw [if_pos rfl, if_pos (by exact stageMatches_staged hprops.1 hprops.2)]
        rfl
      · rw [if_neg hre,
          if_neg (by
            rw [stageMatches_eq_false_of_tagLt (hwf.tags r hr).1]
            exact fun h => nomatch h)]
    simpa using List.map_congr_left hcomp
  · -- the staged row itself witnesses `rowcount > 0`
    rw [List.any_eq_true]
    refine ⟨_, List.mem_map_of_mem _ hmem, ?_⟩
    rw [himg r0 hmem, if_pos rfl]
    exact stageMatches_staged hprops.1 hprops.2

/-- The freshly inserted staged row matches its own stage handle. -/
theorem stageMatches_insertRow {uid : Int} {rowId : Nat} {pn un : String}
    {ca exp : Int} {ps : String} {tk pm : Option String} {rp : Option Int}
    {n : Nat} {m : StageMode} {prev : Option Previous} :
    stageMatches uid
      { mode := m, pending_peer_id := Ident.pending n,
        pending_job_id := Ident.pending (n + 1), previous := prev }
      (stageInsertRow rowId pn (Ident.pending n) (Ident.pending (n + 1)) uid un
        ca exp ps tk pm rp) = true := by
  simp [stageMatches, stageInsertRow]

/-- Rolling back immediately after a create-mode staging deletes exactly
the inserted row. -/
theorem rollback_after_stage_create (db : Db) (uid : Int)
    (pn un : String) (exp now : Int) (ps : String) (tk pm : Option String)
    (rp : Option Int) (hwf : db.Wf) :
    Db.rollback_staged_peer
      { db with
          peers := db.peers ++
            [stageInsertRow db.nextRowId pn (Ident.pending db.nextTag)
              (Ident.pending (db.nextTag + 1)) uid un now exp ps tk pm rp]
          nextRowId := db.nextRowId + 1
          nextTag := db.nextTag + 2 }
      uid
      { mode := .create
        pending_peer_id := Ident.pending db.nextTag
        pending_job_id := Ident.pending (db.nextTag + 1)
        previous := none } =
    ({ db with nextRowId := db.nextRowId + 1, nextTag := db.nextTag + 2 }, true) := by
  unfold Db.rollback_staged_peer
  simp only [List.filter_append, List.any_append, Prod.mk.injEq, Db.mk.injEq]
  refine ⟨⟨?_, trivial, trivial, trivial⟩, ?_⟩
  · rw [List.filter_eq_self.mpr, List.filter_cons, if_neg, List.filter_nil,
      List.append_nil]
    · simp [stageMatches_insertRow]
    · intro r hr
      simp [stageMatches_eq_false_of_tagLt (hwf.tags r hr).1]
  · rw [Bool.or_eq_true]
    right
    simp [stageMatches_insertRow]

/-- When no row matches the stage handle, rollback leaves the database
untouched (in update mode this also covers a firing uniqueness guard and
a missing snapshot). -/
theorem rollback_nomatch (db : Db) (uid : Int) (st : StageInfo)
    (h : ∀ r ∈ db.peers, stageMatches uid st r = false) :
    (db.rollback_staged_peer uid st).1 = db := by
  have hfilter : db.peers.filter (fun r => !(stageMatches uid st r)) = db.peers :=
    List.filter_eq_self.mpr (by intro r hr; simp [h r hr])
  have hmap : ∀ prev : Previous,
      db.peers.map (fun r => if stageMatches uid st r then restoreSet prev r else r) =
        db.peers := by
    intro prev
    have hpt : ∀ r ∈ db.peers,
        (if stageMatches uid st r then restoreSet prev r else r) = r := by
      intro r hr
      simp [h r hr]
    simpa using List.map_congr_left hpt
  unfold Db.rollback_staged_peer
  cases st.mode with
  | create =>
      simp only [hfilter]
  | update =>
      cases st.previous with
      | none => rfl
      | some prev =>
          dsimp only
          by_cases hg : (db.peers.any (fun r => !(stageMatches uid st r) &&
              (r.peer_name == prev.peer_name || r.peer_id == prev.peer_id ||
                r.job_id == prev.job_id))) = true
          · rw [if_pos hg]
          · rw [if_neg hg]
            simp only [hmap prev]

/-- Staging over an existing active row: explicit success equation. -/
theorem stage_eq_update (db : Db) (pn : String) (uid : Int) (un : String) (exp : Int)
    (ps : String) (tk pm : Option String) (rp : Option Int) (now : Int) (r0 : PeerRow)
    (hfind : db.findActive uid = some r0)
    (hnm : (db.peers.any fun r => r.rowId != r0.rowId && r.peer_name == pn) = false) :
    db.stage_peer_record pn uid un exp ps tk pm rp now =
      ({ db with
          peers := db.peers.map (fun r =>
            if r.rowId == r0.rowId then
              peerUpdateSet pn (Ident.pending db.nextTag) (Ident.pending (db.nextTag + 1))
                un exp ps tk pm rp r
            else r)
          nextTag := db.nextTag + 2 },
       some { mode := .update
              pending_peer_id := Ident.pending db.nextTag
              pending_job_id := Ident.pending (db.nextTag + 1)
              previous := some (snapshotOf r0) }) := by
  unfold Db.stage_peer_record
  rw [hfind]
  simp [hnm]

/-- Staging with no active row: explicit success equation. -/
theorem stage_eq_create (db : Db) (pn : String) (uid : Int) (un : String) (exp : Int)
    (ps : String) (tk pm : Option String) (rp : Option Int) (now : Int)
    (hfind : db.findActive uid = none)
    (hnm : (db.peers.any fun r => r.peer_name == pn) = false) :
    db.stage_peer_record pn uid un exp ps tk pm rp now =
      ({ db with
          peers := db.peers ++
            [stageInsertRow db.nextRowId pn (Ident.pending db.nextTag)
              (Ident.pending (db.nextTag + 1)) uid un now exp ps tk pm rp]
          nextRowId := db.nextRowId + 1
          nextTag := db.nextTag + 2 },
       some { mode := .create
              pending_peer_id := Ident.pending db.nextTag
              pending_job_id := Ident.pending (db.nextTag + 1)
              previous := none }) := by
  unfold Db.stage_peer_record
  rw [hfind]
  simp [hnm]

/-- A staging failure leaves the record store untouched. -/
theorem stage_fail_fst (db : Db) (pn : String) (uid : Int) (un : String) (exp : Int)
    (ps : String) (tk pm : Option String) (rp : Option Int) (now : Int)
    (h : (db.stage_peer_record pn uid un exp ps tk pm rp now).2 = none) :
    (db.stage_peer_record pn uid un exp ps tk pm rp now).1 = db := by
  unfold Db.stage_peer_record at h ⊢
  cases hfind : db.findActive uid with
  | some r0 =>
      rw [hfind] at h
      by_cases hnm : (db.peers.any fun r => r.rowId != r0.rowId && r.peer_name == pn) = true
      · simp [hnm]
      · simp [hnm] at h
  | none =>
      rw [hfind] at h
      by_cases hnm : (db.peers.any fun r => r.peer_name == pn) = true
      · simp [hnm]
      · simp [hnm] at h

/-- The download phase never changes the record store. -/
theorem downloadPhase_db (db : Db) (t : Trace) (d : Nat → DownloadOutcome) :
    (downloadPhase db t d).db = db := by
  unfold downloadPhase
  cases download_with_retries d <;> rfl

/-- The compensation path only runs the rollback against the store. -/
theorem compensate_db (db : Db) (t : Trace) (uid : Int) (st : StageInfo)
    (cp : Option String) :
    (compensate db t uid st cp).db = (db.rollback_staged_peer uid st).1 := rfl

/-- Finalization whose UPDATE would violate a UNIQUE column fails
without touching the store. -/
theorem finalize_eq_fail (db : Db) (uid : Int) (st : StageInfo) (pn : String)
    (pid jid : Ident) (exp : Int) (un ps : String) (tk pm : Option String)
    (rp : Option Int)
    (hg : (db.peers.any fun r => !(stageMatches uid st r) &&
      (r.peer_name == pn || r.peer_id == pid || r.job_id == jid)) = true) :
    db.finalize_staged_peer uid st pn pid jid exp un ps tk pm rp = (db, false) := by
  unfold Db.finalize_staged_peer
  simp [hg]

/-- Finalization with a passing uniqueness guard: explicit equation. -/
theorem finalize_eq_ok (db : Db) (uid : Int) (st : StageInfo) (pn : String)
    (pid jid : Ident) (exp : Int) (un ps : String) (tk pm : Option String)
    (rp : Option Int)
    (hg : (db.peers.any fun r => !(stageMatches uid st r) &&
      (r.peer_name == pn || r.peer_id == pid || r.job_id == jid)) = false) :
    db.finalize_staged_peer uid st pn pid jid exp un ps tk pm rp =
      ({ db with
          peers := db.peers.map (fun r =>
            if stageMatches uid st r then
              peerUpdateSet pn pid jid un exp ps tk pm rp r
            else r) },
       db.peers.any (stageMatches uid st)) := by
  unfold Db.finalize_staged_peer
  simp [hg]

/-- The staged row witnesses `rowcount > 0` for the finalizing UPDATE
after an update-mode staging. -/
theorem anyMatches_after_stage_update (db : Db) (uid : Int) (r0 : PeerRow)
    (pn un : String) (exp : Int) (ps : String) (tk pm : Option String)
    (rp : Option Int) (n : Nat) (prev : Option Previous)
    (hfind : db.findActive uid = some r0) :
    ((db.peers.map (fun r =>
        if r.rowId == r0.rowId then
          peerUpdateSet pn (Ident.pending n) (Ident.pending (n + 1)) un exp ps tk pm rp r
        else r)).any
      (stageMatches uid
        { mode := .update, pending_peer_id := Ident.pending n,
          pending_job_id := Ident.pending (n + 1), previous := prev })) = true := by
  have hmem := findActive_some_mem hfind
  have hprops := findActive_some_props hfind
  rw [List.any_eq_true]
  refine ⟨_, List.mem_map_of_mem _ hmem, ?_⟩
  rw [if_pos (by simp)]
  exact stageMatches_staged hprops.1 hprops.2

/-- Claim C2: for every run of the staged create/restore operation,
whatever combination of remote-peer creation, remote-job creation, or
finalization fails, after the operation returns no row of the store
still carries a pending placeholder introduced by this run: every row is
either placeholder-free or a row that already existed before the run
(the deleted/restored compensation outcomes). -/
theorem claim_C2_no_pending_after_flow (db : Db) (now : Int) (uid : Int)
    (username tk : Option String) (env : RemoteEnv) (hwf : db.Wf) :
    ∀ row ∈ (create_or_restore_peer_for_user db now uid username tk env).db.peers,
      (row.peer_id.isPending = false ∧ row.job_id.isPending = false) ∨
        row ∈ db.peers := by
  obtain ⟨ap, ja, jld, cjk, dl⟩ := env
  unfold create_or_restore_peer_for_user
  dsimp only
  cases hfind : db.findActive uid with
  | some r0 =>
      by_cases hnm : (db.peers.any fun r =>
          r.rowId != r0.rowId && r.peer_name == generate_peer_name username uid) = true
      · rw [show Db.stage_peer_record db (generate_peer_name username uid) uid
            (username.getD "") (flowTargetExpire db now uid tk) "paid" tk none none now =
            (db, none) by
          unfold Db.stage_peer_record
          rw [hfind]
          simp [hnm]]
        exact fun row h => Or.inr h
      · simp only [Bool.not_eq_true] at hnm
        rw [stage_eq_update db (generate_peer_name username uid) uid (username.getD "")
          (flowTargetExpire db now uid tk) "paid" tk none none now r0 hfind hnm]
        dsimp only
        have hcomp :
            (Db.rollback_staged_peer
              { db with
                  peers := db.peers.map (fun r =>
                    if r.rowId == r0.rowId then
                      peerUpdateSet (generate_peer_name username uid)
                        (Ident.pending db.nextTag) (Ident.pending (db.nextTag + 1))
                        (username.getD "") (flowTargetExpire db now uid tk) "paid"
                        tk none none r
                    else r)
                  nextTag := db.nextTag + 2 }
              uid
              { mode := .update
                pending_peer_id := Ident.pending db.nextTag
                pending_job_id := Ident.pending (db.nextTag + 1)
                previous := some (snapshotOf r0) }).1.peers = db.peers := by
          rw [rollback_after_stage_update db uid r0 (generate_peer_name username uid)
            (username.getD "") (flowTargetExpire db now uid tk) "paid" tk none none
            hwf hfind]
        cases ap with
        | raised =>
            rw [compensate_db]
            rw [hcomp]
            exact fun row h => Or.inr h
        | noId =>
            rw [compensate_db]
            rw [hcomp]
            exact fun row h => Or.inr h
        | ok pid =>
            dsimp only [create_restrict_job]
            cases ja with
            | raised =>
                rw [compensate_db]
                rw [hcomp]
                exact fun row h => Or.inr h
            | statusFalse =>
                rw [compensate_db]
                rw [hcomp]
                exact fun row h => Or.inr h
            | ok =>
                by_cases hfg : ((db.peers.map (fun r =>
                    if r.rowId == r0.rowId then
                      peerUpdateSet (generate_peer_name username uid)
                        (Ident.pending db.nextTag) (Ident.pending (db.nextTag + 1))
                        (username.getD "") (flowTargetExpire db now uid tk) "paid"
                        tk none none r
                    else r)).any fun r =>
                      !(stageMatches uid
                        { mode := .update
                          pending_peer_id := Ident.pending db.nextTag
                          pending_job_id := Ident.pending (db.nextTag + 1)
                          previous := some (snapshotOf r0) } r) &&
                      (r.peer_name == generate_peer_name username uid ||
                        r.peer_id == Ident.real pid || r.job_id == Ident.real jld)) = true
                · rw [finalize_eq_fail _ _ _ _ _ _ _ _ _ _ _ _ hfg]
                  dsimp only
                  rw [if_neg (by simp)]
                  rw [compensate_db]
                  rw [hcomp]
                  exact fun row h => Or.inr h
                · simp only [Bool.not_eq_true] at hfg
                  rw [finalize_eq_ok _ _ _ _ _ _ _ _ _ _ _ _ hfg]
                  dsimp only
                  rw [if_pos (by
                    exact anyMatches_after_stage_update db uid r0 _ _ _ _ _ _ _
                      db.nextTag _ hfind)]
                  -- rows of the finalized store, and the fact that none of
                  -- them still matches the stage handle
                  have hrows : ∀ row ∈ ((db.peers.map (fun r =>
                      if r.rowId == r0.rowId then
                        peerUpdateSet (generate_peer_name username uid)
                          (Ident.pending db.nextTag) (Ident.pending (db.nextTag + 1))
                          (username.getD "") (flowTargetExpire db now uid tk) "paid"
                          tk none none r
                      else r)).map (fun r =>
                        if stageMatches uid
                          { mode := .update
                            pending_peer_id := Ident.pending db.nextTag
                            pending_job_id := Ident.pending (db.nextTag + 1)
                            previous := some (snapshotOf r0) } r then
                          peerUpdateSet (generate_peer_name username uid)
                            (Ident.real pid) (Ident.real jld) (username.getD "")
                            (normalizeExpire now
                              (DateArg.parsed (flowTargetExpire db now uid tk)))
                            "paid" tk none none r
                        else r)),
                      ((row.peer_id.isPending = false ∧ row.job_id.isPending = false) ∨
                        row ∈ db.peers) ∧
                      stageMatches uid
                        { mode := .update
                          pending_peer_id := Ident.pending db.nextTag
                          pending_job_id := Ident.pending (db.nextTag + 1)
                          previous := some (snapshotOf r0) } row = false := by
                    intro x hx
                    rw [List.mem_map] at hx
                    obtain ⟨y, hy, hxy⟩ := hx
                    rw [List.mem_map] at hy
                    obtain ⟨r, hr, hyr⟩ := hy
                    by_cases hid : r.rowId = r0.rowId
                    · have hre : r = r0 := hwf.rowId_inj hr (findActive_some_mem hfind) hid
                      subst hre
                      rw [if_pos (by simp)] at hyr
                      have hprops := findActive_some_props hfind
                      rw [← hyr, if_pos (stageMatches_staged hprops.1 hprops.2)] at hxy
                      subst hxy
                      refine ⟨Or.inl ⟨rfl, rfl⟩, ?_⟩
                      simp [stageMatches, peerUpdateSet]
                    · rw [if_neg (by simp [hid])] at hyr
                      subst hyr
                      rw [if_neg (by
                        rw [stageMatches_eq_false_of_tagLt (hwf.tags r hr).1]
                        exact fun h => nomatch h)] at hxy
                      subst hxy
                      exact ⟨Or.inr hr,
                        stageMatches_eq_false_of_tagLt (hwf.tags r hr).1⟩
                  cases cjk with
                  | true =>
                      rw [if_pos rfl]
                      rw [downloadPhase_db]
                      exact fun row h => (hrows row h).1
                  | false =>
                      rw [if_neg (by simp)]
                      rw [compensate_db]
                      rw [rollback_nomatch _ _ _ (fun r hr => (hrows r hr).2)]
                      exact fun row h => (hrows row h).1
  | none =>
      by_cases hnm : (db.peers.any fun r =>
          r.peer_name == generate_peer_name username uid) = true
      · rw [show Db.stage_peer_record db (generate_peer_name username uid) uid
            (username.getD "") (flowTargetExpire db now uid tk) "paid" tk none none now =
            (db, none) by
          unfold Db.stage_peer_record
          rw [hfind]
          simp [hnm]]
        exact fun row h => Or.inr h
      · simp only [Bool.not_eq_true] at hnm
        rw [stage_eq_create db (generate_peer_name username uid) uid (username.getD "")
          (flowTargetExpire db now uid tk) "paid" tk none none now hfind hnm]
        dsimp only
        have hcomp :
            (Db.rollback_staged_peer
              { db with
                  peers := db.peers ++
                    [stageInsertRow db.nextRowId (generate_peer_name username uid)
                      (Ident.pending db.nextTag) (Ident.pending (db.nextTag + 1)) uid
                      (username.getD "") now (flowTargetExpire db now uid tk) "paid"
                      tk none none]
                  nextRowId := db.nextRowId + 1
                  nextTag := db.nextTag + 2 }
              uid
              { mode := .create
                pending_peer_id := Ident.pending db.nextTag
                pending_job_id := Ident.pending (db.nextTag + 1)
                previous := none }).1.peers = db.peers := by
          rw [rollback_after_stage_create db uid (generate_peer_name username uid)
            (username.getD "") (flowTargetExpire db now uid tk) now "paid" tk none
            none hwf]
        cases ap with
        | raised =>
            rw [compensate_db]
            rw [hcomp]
            exact fun row h => Or.inr h
        | noId =>
            rw [compensate_db]
            rw [hcomp]
            exact fun row h => Or.inr h
        | ok pid =>
            dsimp only [create_restrict_job]
            cases ja with
            | raised =>
                rw [compensate_db]
                rw [hcomp]
                exact fun row h => Or.inr h
            | statusFalse =>
                rw [compensate_db]
                rw [hcomp]
                exact fun row h => Or.inr h
            | ok =>
                by_cases hfg : (((db.peers ++
                    [stageInsertRow db.nextRowId (generate_peer_name username uid)
                      (Ident.pending db.nextTag) (Ident.pending (db.nextTag + 1)) uid
                      (username.getD "") now (flowTargetExpire db now uid tk) "paid"
                      tk none none]).any fun r =>
                      !(stageMatches uid
                        { mode := .create
                          pending_peer_id := Ident.pending db.nextTag
                          pending_job_id := Ident.pending (db.nextTag + 1)
                          previous := none } r) &&
                      (r.peer_name == generate_peer_name username uid ||
                        r.peer_id == Ident.real pid || r.job_id == Ident.real jld)) = true)
                · rw [finalize_eq_fail _ _ _ _ _ _ _ _ _ _ _ _ hfg]
                  dsimp only
                  rw [if_neg (by simp)]
                  rw [compensate_db]
                  rw [hcomp]
                  exact fun row h => Or.inr h
                · simp only [Bool.not_eq_true] at hfg
                  rw [finalize_eq_ok _ _ _ _ _ _ _ _ _ _ _ _ hfg]
                  dsimp only
                  rw [if_pos (by
                    rw [List.any_append, Bool.or_eq_true]
                    right
                    simp [stageMatches_insertRow])]
                  have hrows : ∀ row ∈ ((db.peers ++
                      [stageInsertRow db.nextRowId (generate_peer_name username uid)
                        (Ident.pending db.nextTag) (Ident.pending (db.nextTag + 1)) uid
                        (username.getD "") now (flowTargetExpire db now uid tk) "paid"
                        tk none none]).map (fun r =>
                        if stageMatches uid
                          { mode := .create
                            pending_peer_id := Ident.pending db.nextTag
                            pending_job_id := Ident.pending (db.nextTag + 1)
                            previous := none } r then
                          peerUpdateSet (generate_peer_name username uid)
                            (Ident.real pid) (Ident.real jld) (username.getD "")
                            (normalizeExpire now
                              (DateArg.parsed (flowTargetExpire db now uid tk)))
                            "paid" tk none none r
                        else r)),
                      ((row.peer_id.isPending = false ∧ row.job_id.isPending = false) ∨
                        row ∈ db.peers) ∧
                      stageMatches uid
                        { mode := .create
                          pending_peer_id := Ident.pending db.nextTag
                          pending_job_id := Ident.pending (db.nextTag + 1)
                          previous := none } row = false := by
                    intro x hx
                    rw [List.mem_map] at hx
                    obtain ⟨y, hy, hxy⟩ := hx
                    rw [List.mem_append] at hy
                    cases hy with
                    | inl hy =>
                        rw [if_neg (by
                          rw [stageMatches_eq_false_of_tagLt (hwf.tags y hy).1]
                          exact fun h => nomatch h)] at hxy
                        subst hxy
                        exact ⟨Or.inr hy,
                          stageMatches_eq_false_of_tagLt (hwf.tags y hy).1⟩
                    | inr hy =>
                        rw [List.mem_singleton] at hy
                        subst hy
                        rw [if_pos stageMatches_insertRow] at hxy
                        subst hxy
                        refine ⟨Or.inl ⟨rfl, rfl⟩, ?_⟩
                        simp [stageMatches, peerUpdateSet]
                  cases cjk with
                  | true =>
                      rw [if_pos rfl]
                      rw [downloadPhase_db]
                      exact fun row h => (hrows row h).1
                  | false =>
                      rw [if_neg (by simp)]
                      rw [compensate_db]
                      rw [rollback_nomatch _ _ _ (fun r hr => (hrows r hr).2)]
                      exact fun row h => (hrows row h).1

/-- Witness for claim C2: a concrete well-formed store run through the
flow, with the hypotheses discharged by computation. -/
theorem claim_C2_witness :
    sampleDb.Wf ∧
      ∀ row ∈ (create_or_restore_peer_for_user sampleDb 0 7 (some "alice")
        (some "30_days") sampleEnv).db.peers,
        (row.peer_id.isPending = false ∧ row.job_id.isPending = false) ∨
          row ∈ sampleDb.peers := by
  have hwf : sampleDb.Wf := ⟨by decide, by decide⟩
  exact ⟨hwf, claim_C2_no_pending_after_flow sampleDb 0 7 (some "alice")
    (some "30_days") sampleEnv hwf⟩

/-- Claim C3: for every update-mode staging on an existing grant, if
the remote steps fail afterwards, the rollback restores every captured
previous field value exactly — the store's rows return to their exact
pre-staging values (in particular `expire_date` and `payment_status`,
along with `peer_name`, `peer_id`, `job_id`, `telegram_username`,
`tariff_key`, `payment_method` and `rub_paid`), and the user's active
row is again the original row. -/
theorem claim_C3_rollback_exact (db : Db) (uid : Int) (r0 : PeerRow)
    (pn un : String) (exp : Int) (ps : String) (tk pm : Option String)
    (rp : Option Int) (now : Int) (db1 : Db) (st : StageInfo) (hwf : db.Wf)
    (hfind : db.findActive uid = some r0)
    (hstage : db.stage_peer_record pn uid un exp ps tk pm rp now = (db1, some st)) :
    (db1.rollback_staged_peer uid st).1.peers = db.peers ∧
      (db1.rollback_staged_peer uid st).2 = true ∧
      (db1.rollback_staged_peer uid st).1.findActive uid = some r0 := by
  by_cases hnm : (db.peers.any fun r => r.rowId != r0.rowId && r.peer_name == pn) = true
  · rw [show db.stage_peer_record pn uid un exp ps tk pm rp now = (db, none) by
      unfold Db.stage_peer_record
      rw [hfind]
      simp [hnm]] at hstage
    exact absurd (congrArg Prod.snd hstage) (by simp)
  · simp only [Bool.not_eq_true] at hnm
    rw [stage_eq_update db pn uid un exp ps tk pm rp now r0 hfind hnm] at hstage
    have h1 := congrArg Prod.fst hstage
    have h2 := congrArg Prod.snd hstage
    simp only [] at h1 h2
    rw [Option.some.injEq] at h2
    subst h1
    subst h2
    rw [rollback_after_stage_update db uid r0 pn un exp ps tk pm rp hwf hfind]
    exact ⟨rfl, rfl, hfind⟩

/-- Witness for claim C3: staging an update over the sample grant (prior
`expire_date = 100`, `payment_status = "paid"`) and rolling back
restores the table to exactly its previous rows. -/
theorem claim_C3_witness :
    (db1C3.rollback_staged_peer 7 stC3).1.peers = sampleDb.peers ∧
      (db1C3.rollback_staged_peer 7 stC3).2 = true ∧
      (db1C3.rollback_staged_peer 7 stC3).1.findActive 7 = some sampleRow :=
  claim_C3_rollback_exact sampleDb 7 sampleRow "alice_7" "alice" 200 "paid" none none
    none 0 db1C3 stC3 ⟨by decide, by decide⟩ (by decide) (by decide)

/-- Claim C1 (code bug): an errored existence check is treated exactly
like a definite "peer does not exist".  `check_peer_exists` catches every
exception of its own HTTP request and returns `False` (`wg_api.py:234-236`),
so in the payment handlers the resolved status after an errored check
(with the restriction-lifting call also failing) is `some false`, the
dispatch takes the recreate branch — starting a staged create/restore —
and the handlers' own `None`/"unknown, try again" branch is unreachable:
the resolution never yields `none`. -/
theorem claim_C1_errored_check_treated_as_missing :
    check_peer_exists "PK1" PeerCheckWire.raised = false ∧
    resolve_extension_peer_status "PK1" PeerCheckWire.raised AllowOutcome.raised =
      some false ∧
    extension_dispatch
      (resolve_extension_peer_status "PK1" PeerCheckWire.raised AllowOutcome.raised) =
      ExtendAction.recreate ∧
    resolve_extension_peer_status "PK1" PeerCheckWire.raised AllowOutcome.raised =
      resolve_extension_peer_status "PK1" (PeerCheckWire.resp 200 (some (false, true)))
        AllowOutcome.raised ∧
    (∀ (pid : String) (wire : PeerCheckWire) (allow : AllowOutcome),
      (resolve_extension_peer_status pid wire allow).isSome = true) := by
  refine ⟨rfl, rfl, rfl, rfl, ?_⟩
  intro pid wire allow
  unfold resolve_extension_peer_status
  cases allow with
  | raised => rfl
  | resp s => cases s <;> rfl

/-- Claim C7: when the staging write itself fails, the create/restore
operation aborts immediately with the "failed to persist" message: the
store is untouched, no remote peer-create, job-create or peer-delete
call is issued, and no config artifact is produced. -/
theorem claim_C7_stage_failure_aborts (db : Db) (now : Int) (uid : Int)
    (username tk : Option String) (env : RemoteEnv)
    (hstage : (db.stage_peer_record (generate_peer_name username uid) uid
      (username.getD "") (flowTargetExpire db now uid tk) "paid" tk none none
      now).2 = none) :
    (create_or_restore_peer_for_user db now uid username tk env).db = db ∧
    (create_or_restore_peer_for_user db now uid username tk env).trace =
      { addPeerCalls := [], jobsIssued := [], deletePeerCalls := [] } ∧
    (create_or_restore_peer_for_user db now uid username tk env).result =
      { success := false, message := "Ошибка при сохранении клиента в БД",
        config := none } := by
  have hfst := stage_fail_fst db (generate_peer_name username uid) uid
    (username.getD "") (flowTargetExpire db now uid tk) "paid" tk none none now hstage
  have hpair : db.stage_peer_record (generate_peer_name username uid) uid
      (username.getD "") (flowTargetExpire db now uid tk) "paid" tk none none now =
      (db, none) := by
    calc db.stage_peer_record (generate_peer_name username uid) uid (username.getD "")
          (flowTargetExpire db now uid tk) "paid" tk none none now =
        ((db.stage_peer_record (generate_peer_name username uid) uid (username.getD "")
          (flowTargetExpire db now uid tk) "paid" tk none none now).1,
         (db.stage_peer_record (generate_peer_name username uid) uid (username.getD "")
          (flowTargetExpire db now uid tk) "paid" tk none none now).2) := rfl
      _ = (db, none) := by rw [hfst, hstage]
  unfold create_or_restore_peer_for_user
  dsimp only
  rw [hpair]
  exact ⟨rfl, rfl, rfl⟩

/-- Witness for claim C7: a concrete store in which the staging INSERT
violates UNIQUE(peer_name); the flow aborts before any remote call. -/
theorem claim_C7_witness :
    (clashDb.stage_peer_record (generate_peer_name none 1) 1 ""
      (flowTargetExpire clashDb 0 1 none) "paid" none none none 0).2 = none ∧
    (create_or_restore_peer_for_user clashDb 0 1 none none sampleEnv).db = clashDb ∧
    (create_or_restore_peer_for_user clashDb 0 1 none none sampleEnv).trace =
      { addPeerCalls := [], jobsIssued := [], deletePeerCalls := [] } ∧
    (create_or_restore_peer_for_user clashDb 0 1 none none sampleEnv).result =
      { success := false, message := "Ошибка при сохранении клиента в БД",
        config := none } := by
  have h : (clashDb.stage_peer_record (generate_peer_name none 1) 1 ""
      (flowTargetExpire clashDb 0 1 none) "paid" none none none 0).2 = none := by decide
  have hmain := claim_C7_stage_failure_aborts clashDb 0 1 none none sampleEnv h
  exact ⟨h, hmain.1, hmain.2.1, hmain.2.2⟩

/-- `find?` over a map whose function preserves the predicate. -/
theorem find?_map_pres (l : List PeerRow) (f : PeerRow → PeerRow) (p : PeerRow → Bool)
    (h : ∀ r, p (f r) = p r) : (l.map f).find? p = (l.find? p).map f := by
  induction l with
  | nil => rfl
  | cons a t ih =>
      cases hpa : p a with
      | true =>
          rw [List.map_cons, List.find?_cons_of_pos _ (by rw [h a, hpa]),
            List.find?_cons_of_pos _ hpa]
          rfl
      | false =>
          rw [List.map_cons, List.find?_cons_of_neg _ (by simp [h a, hpa]),
            List.find?_cons_of_neg _ (by simp [hpa])]
          exact ih

/-- Updating a payment row never touches the peers table. -/
theorem upsbi_findActive (db : Db) (pid s : String) (uid : Int) :
    (db.update_payment_status_by_id pid s).1.findActive uid = db.findActive uid := by
  unfold Db.update_payment_status_by_id
  split <;> rfl

/-- `extend_access` over a user with an active row: the user's active
row afterwards carries the extended date and cleared flags. -/
theorem extend_access_found (db : Db) (now : Int) (uid : Int) (days : Int)
    (r : PeerRow) (hfind : db.findActive uid = some r) :
    (db.extend_access now uid days).1.findActive uid =
      some { r with
              expire_date := if r.expire_date < now then now + days
                else r.expire_date + days
              notification_sent := false
              expired_notification_sent := false } := by
  have hp := List.find?_some hfind
  unfold Db.extend_access
  rw [hfind]
  dsimp only
  show (List.map _ db.peers).find? _ = _
  rw [find?_map_pres db.peers _ _ (by
    intro r'
    by_cases hc : (r'.telegram_user_id == uid && r'.is_active) = true
    · rw [if_pos hc]
    · rw [if_neg hc])]
  rw [show db.peers.find? (fun r => r.telegram_user_id == uid && r.is_active) = some r
    from hfind]
  simp only [Option.map_some']
  rw [if_pos hp]

/-- Every tariff period is positive (the lookup defaults to 30 days). -/
theorem tariffDays_pos (tk : Option String) : 0 < tariffDays tk := by
  unfold tariffDays
  split <;> norm_num

/-- Counterexample to claim C4: replaying the same successful payment
(`payment_id = "pay1"`, tariff 30 days) against a grant expiring at
day 100 moves the expiry to 130 after the first confirmation and to 160
— a second full 30-day extension — after the duplicate confirmation. -/
theorem claim_C4_counterexample :
    ((confirm_payment_extend payDb 0 "pay1" 7 (some "30_days")).1.findActive 7).map
        PeerRow.expire_date = some 130 ∧
    ((confirm_payment_extend (confirm_payment_extend payDb 0 "pay1" 7
        (some "30_days")).1 0 "pay1" 7 (some "30_days")).1.findActive 7).map
        PeerRow.expire_date = some 160 ∧
    (160 : Int) ≠ 130 := by
  refine ⟨by decide, by decide, by decide⟩

/-- Claim C4 amended: the payment-confirmation step applies the
extension unconditionally on every delivery — nothing ties it to the
payment id — so confirming the same payment twice for tariff T adds the
T-day period twice: starting from an unexpired grant the expiry moves
from `e` to `e + 2·T`. -/
theorem claim_C4_amended (db : Db) (now : Int) (pid1 pid2 : String) (uid : Int)
    (tk : Option String) (r : PeerRow) (hfind : db.findActive uid = some r)
    (hfut : ¬ r.expire_date < now) :
    ((confirm_payment_extend db now pid1 uid tk).1.findActive uid).map
        PeerRow.expire_date = some (r.expire_date + tariffDays tk) ∧
    ((confirm_payment_extend (confirm_payment_extend db now pid1 uid tk).1 now
        pid2 uid tk).1.findActive uid).map PeerRow.expire_date =
      some (r.expire_date + 2 * tariffDays tk) := by
  have hpos := tariffDays_pos tk
  have hfut2 : ¬ r.expire_date + tariffDays tk < now := by omega
  unfold confirm_payment_extend
  have h1 : ((db.update_payment_status_by_id pid1 "succeeded").1.extend_access now uid
      (tariffDays tk)).1.findActive uid =
      some { r with
              expire_date := r.expire_date + tariffDays tk
              notification_sent := false
              expired_notification_sent := false } := by
    rw [extend_access_found _ now uid (tariffDays tk) r
      (by rw [upsbi_findActive]; exact hfind)]
    rw [if_neg hfut]
  refine ⟨by rw [h1]; rfl, ?_⟩
  rw [extend_access_found _ now uid (tariffDays tk) _
    (by rw [upsbi_findActive]; exact h1)]
  dsimp only
  rw [if_neg hfut2]
  simp only [Option.map_some']
  congr 1
  omega

/-- Witness for claim C4's amended statement at the concrete store. -/
theorem claim_C4_witness :
    payDb.findActive 7 = some sampleRow ∧ ¬ sampleRow.expire_date < 0 ∧
    ((confirm_payment_extend (confirm_payment_extend payDb 0 "pay1" 7
        (some "30_days")).1 0 "pay1" 7 (some "30_days")).1.findActive 7).map
        PeerRow.expire_date = some (sampleRow.expire_date + 2 * tariffDays (some "30_days")) :=
  ⟨by decide, by decide,
    (claim_C4_amended payDb 0 "pay1" "pay1" 7 (some "30_days") sampleRow
      (by decide) (by decide)).2⟩

/-- The active-row count of a user is untouched by a map preserving the
user id and the activity flag of every row. -/
theorem activeCount_map_eq (l : List PeerRow) (u : Int) (f : PeerRow → PeerRow)
    (h : ∀ r, ((f r).telegram_user_id == u && (f r).is_active) =
      (r.telegram_user_id == u && r.is_active)) :
    ((l.map f).filter (fun r => r.telegram_user_id == u && r.is_active)).length =
      (l.filter (fun r => r.telegram_user_id == u && r.is_active)).length := by
  induction l with
  | nil => rfl
  | cons a t ih =>
      rw [List.map_cons, List.filter_cons, List.filter_cons, h a]
      cases (a.telegram_user_id == u && a.is_active) <;> simp [ih]

/-- The active-row count cannot grow under a map that never activates a
row or moves it between users. -/
theorem activeCount_map_le (l : List PeerRow) (u : Int) (f : PeerRow → PeerRow)
    (h : ∀ r, ((f r).telegram_user_id == u && (f r).is_active) = true →
      (r.telegram_user_id == u && r.is_active) = true) :
    ((l.map f).filter (fun r => r.telegram_user_id == u && r.is_active)).length ≤
      (l.filter (fun r => r.telegram_user_id == u && r.is_active)).length := by
  induction l with
  | nil => exact Nat.le_refl _
  | cons a t ih =>
      rw [List.map_cons, List.filter_cons, List.filter_cons]
      by_cases hfa : ((f a).telegram_user_id == u && (f a).is_active) = true
      · rw [if_pos hfa, if_pos (h a hfa)]
        simpa using ih
      · rw [if_neg hfa]
        by_cases ha : (a.telegram_user_id == u && a.is_active) = true
        · rw [if_pos ha]
          exact Nat.le_succ_of_le ih
        · rw [if_neg ha]
          exact ih

/-- Deleting rows never grows the active-row count. -/
theorem activeCount_filter_le (l : List PeerRow) (u : Int) (q : PeerRow → Bool) :
    ((l.filter q).filter (fun r => r.telegram_user_id == u && r.is_active)).length ≤
      (l.filter (fun r => r.telegram_user_id == u && r.is_active)).length :=
  ((l.filter_sublist (p := q)).filter _).length_le

/-- `extend_access` with no active row is a no-op. -/
theorem extend_eq_none (db : Db) (now : Int) (uid : Int) (days : Int)
    (hfind : db.findActive uid = none) :
    db.extend_access now uid days = (db, false, none) := by
  unfold Db.extend_access
  rw [hfind]

/-- `extend_access` over an active row: explicit equation. -/
theorem extend_eq_some (db : Db) (now : Int) (uid : Int) (days : Int) (r : PeerRow)
    (hfind : db.findActive uid = some r) :
    db.extend_access now uid days =
      ({ db with
          peers := db.peers.map (fun q =>
            if q.telegram_user_id == uid && q.is_active then
              { q with
                  expire_date := if r.expire_date < now then now + days
                    else r.expire_date + days
                  notification_sent := false
                  expired_notification_sent := false }
            else q) },
       true,
       some (if r.expire_date < now then now + days else r.expire_date + days)) := by
  unfold Db.extend_access
  rw [hfind]

/-- Every record-store operation other than `add_peer` preserves the
one-active-row-per-user invariant. -/
theorem applyOp_preserves (db : Db) (op : DbOp)
    (h : ∀ u, db.activeCount u ≤ 1) : ∀ u, (applyOp db op).activeCount u ≤ 1 := by
  intro u
  cases op with
  | stageRec pn uid un exp ps tk pm rp now =>
      unfold applyOp
      dsimp only
      cases hfind : db.findActive uid with
      | some r0 =>
          by_cases hnm : (db.peers.any fun r =>
              r.rowId != r0.rowId && r.peer_name == pn) = true
          · rw [show db.stage_peer_record pn uid un exp ps tk pm rp now = (db, none) by
              unfold Db.stage_peer_record
              rw [hfind]
              simp [hnm]]
            exact h u
          · simp only [Bool.not_eq_true] at hnm
            rw [stage_eq_update db pn uid un exp ps tk pm rp now r0 hfind hnm]
            unfold Db.activeCount
            dsimp only
            rw [activeCount_map_eq db.peers u _ (by
              intro r
              by_cases hc : (r.rowId == r0.rowId) = true
              · rw [if_pos hc]
                rfl
              · rw [if_neg hc])]
            exact h u
      | none =>
          by_cases hnm : (db.peers.any fun r => r.peer_name == pn) = true
          · rw [show db.stage_peer_record pn uid un exp ps tk pm rp now = (db, none) by
              unfold Db.stage_peer_record
              rw [hfind]
              simp [hnm]]
            exact h u
          · simp only [Bool.not_eq_true] at hnm
            rw [stage_eq_create db pn uid un exp ps tk pm rp now hfind hnm]
            unfold Db.activeCount
            dsimp only
            rw [List.filter_append, List.length_append]
            by_cases hu : (uid == u) = true
            · have hzero : db.peers.filter
                  (fun r => r.telegram_user_id == u && r.is_active) = [] := by
                rw [List.filter_eq_nil_iff]
                intro r hr
                have hnone := List.find?_eq_none.mp hfind r hr
                simp only [Bool.and_eq_true, beq_iff_eq] at hnone ⊢
                rw [beq_iff_eq] at hu
                subst hu
                exact fun hcon => hnone ⟨hcon.1, hcon.2⟩
              rw [hzero]
              simp [List.filter, stageInsertRow, hu]
            · have hone : (List.filter (fun r => r.telegram_user_id == u && r.is_active)
                  [stageInsertRow db.nextRowId pn (Ident.pending db.nextTag)
                    (Ident.pending (db.nextTag + 1)) uid un now exp ps tk pm rp]) = [] := by
                simp [List.filter, stageInsertRow, hu]
              rw [hone]
              simpa using h u
  | finalizeRec uid st pn pid jid exp un ps tk pm rp =>
      unfold applyOp
      dsimp only
      by_cases hg : (db.peers.any fun r => !(stageMatches uid st r) &&
          (r.peer_name == pn || r.peer_id == pid || r.job_id == jid)) = true
      · rw [finalize_eq_fail _ _ _ _ _ _ _ _ _ _ _ _ hg]
        exact h u
      · simp only [Bool.not_eq_true] at hg
        rw [finalize_eq_ok _ _ _ _ _ _ _ _ _ _ _ _ hg]
        unfold Db.activeCount
        dsimp only
        rw [activeCount_map_eq db.peers u _ (by
          intro r
          by_cases hc : stageMatches uid st r = true
          · rw [if_pos hc]
            rfl
          · rw [if_neg hc])]
        exact h u
  | rollbackRec uid st =>
      unfold applyOp
      dsimp only
      obtain ⟨m, pp, pj, prev⟩ := st
      cases m with
      | create =>
          unfold Db.rollback_staged_peer Db.activeCount
          dsimp only
          exact Nat.le_trans (activeCount_filter_le db.peers u _) (h u)
      | update =>
          unfold Db.rollback_staged_peer
          cases prev with
          | none => exact h u
          | some prev =>
              dsimp only
              by_cases hg : (db.peers.any (fun r =>
                  !(stageMatches uid ⟨.update, pp, pj, some prev⟩ r) &&
                  (r.peer_name == prev.peer_name || r.peer_id == prev.peer_id ||
                    r.job_id == prev.job_id))) = true
              · rw [if_pos hg]
                exact h u
              · rw [if_neg hg]
                unfold Db.activeCount
                dsimp only
                rw [activeCount_map_eq db.peers u _ (by
                  intro r
                  by_cases hc : stageMatches uid ⟨.update, pp, pj, some prev⟩ r = true
                  · rw [if_pos hc]
                    rfl
                  · rw [if_neg hc])]
                exact h u
  | deleteRec pn =>
      unfold applyOp Db.delete_peer Db.activeCount
      dsimp only
      refine Nat.le_trans (activeCount_map_le db.peers u _ ?_) (h u)
      intro r hfr
      by_cases hc : (r.peer_name == pn) = true
      · rw [if_pos hc] at hfr
        simp only [Bool.and_eq_true] at hfr
        exact absurd hfr.2 (by simp)
      · rw [if_neg hc] at hfr
        exact hfr
  | extendRec now uid days =>
      unfold applyOp
      dsimp only
      cases hfind : db.findActive uid with
      | none =>
          rw [extend_eq_none db now uid days hfind]
          exact h u
      | some row =>
          rw [extend_eq_some db now uid days row hfind]
          unfold Db.activeCount
          dsimp only
          rw [activeCount_map_eq db.peers u _ (by
            intro r
            by_cases hc : (r.telegram_user_id == uid && r.is_active) = true
            · rw [if_pos hc]
            · rw [if_neg hc])]
          exact h u
  | updPayRec now uid ps amount pm tk =>
      unfold applyOp Db.update_payment_status Db.activeCount
      dsimp only
      rw [activeCount_map_eq db.peers u _ (by
        intro r
        by_cases hc : (r.telegram_user_id == uid && r.is_active) = true
        · rw [if_pos hc]
          split <;> rfl
        · rw [if_neg hc])]
      exact h u

/-- Counterexample to claim C5: two successful `add_peer` INSERTs for
the same Telegram user under distinct peer names and distinct remote
identifiers leave two rows with `is_active = true` for that user —
`add_peer` never checks for an existing active row. -/
theorem claim_C5_counterexample :
    addTwice1.2 = true ∧ addTwice2.2 = true ∧
      addTwice2.1.activeCount 1 = 2 ∧ ¬ (2 : Nat) ≤ 1 := by
  refine ⟨by decide, by decide, by decide, by decide⟩

/-- Claim C5 amended: for every sequence of record-store operations
drawn from stage_peer_record, finalize_staged_peer,
rollback_staged_peer, delete_peer, extend_access and
update_payment_status — i.e. the public mutators except the
unconditional `add_peer` INSERT — at most one row per Telegram user is
active at any time; staging over a user with an active row updates that
row in place. -/
theorem claim_C5_amended (db : Db) (ops : List DbOp)
    (h : ∀ u, db.activeCount u ≤ 1) (u : Int) :
    (ops.foldl applyOp db).activeCount u ≤ 1 := by
  induction ops generalizing db with
  | nil => exact h u
  | cons op rest ih => exact ih (applyOp db op) (applyOp_preserves db op h)

/-- Witness for claim C5's amended statement: a staging, an extension
and a soft delete applied to the sample store keep the invariant. -/
theorem claim_C5_witness :
    (([DbOp.stageRec "alice_7" 7 "alice" 200 "paid" none none none 0,
       DbOp.extendRec 0 7 30,
       DbOp.deleteRec "alice_7"].foldl applyOp sampleDb).activeCount 7) ≤ 1 :=
  claim_C5_amended sampleDb _ (fun _ => List.length_filter_le _ _) 7

/-- Compensation always reports failure. -/
theorem compensate_success (db : Db) (t : Trace) (uid : Int) (st : StageInfo)
    (cp : Option String) : (compensate db t uid st cp).result.success = false := rfl

/-- The download phase does not alter the call trace. -/
theorem downloadPhase_trace (db : Db) (t : Trace) (d : Nat → DownloadOutcome) :
    (downloadPhase db t d).trace = t := by
  unfold downloadPhase
  cases download_with_retries d <;> rfl

/-- Claim C6: the gateway wrapper substitutes `now + PEER_EXPIRY_DAYS`
for a requested expiry that is not in the future (or unparseable) and
returns the effective date together with the job request carrying it;
whenever the create/restore flow succeeds, the stored `expire_date` of
the user's grant equals that effective expiry — the date actually bound
to the issued remote job — and not necessarily the requested one. -/
theorem claim_C6_effective_expiry (db : Db) (now : Int) (uid : Int)
    (username tk : Option String) (env : RemoteEnv)
    (hsucc : (create_or_restore_peer_for_user db now uid username tk env).result.success
      = true) :
    (∀ t, t ≤ now → normalizeExpire now (DateArg.parsed t) = now + PEER_EXPIRY_DAYS) ∧
    normalizeExpire now DateArg.unparsable = now + PEER_EXPIRY_DAYS ∧
    (∀ (pidStr jid : String) (arg : DateArg),
      (create_restrict_job now pidStr jid arg).2.2 = normalizeExpire now arg ∧
      (create_restrict_job now pidStr jid arg).1.value = normalizeExpire now arg) ∧
    (∃ row,
      (create_or_restore_peer_for_user db now uid username tk env).db.findActive uid =
        some row ∧
      row.expire_date =
        normalizeExpire now (DateArg.parsed (flowTargetExpire db now uid tk)) ∧
      ∀ j ∈ (create_or_restore_peer_for_user db now uid username tk env).trace.jobsIssued,
        j.value = row.expire_date) := by
  refine ⟨fun t ht => by simp [normalizeExpire, ht], rfl,
    fun pidStr jid arg => ⟨rfl, rfl⟩, ?_⟩
  obtain ⟨ap, ja, jld, cjk, dl⟩ := env
  unfold create_or_restore_peer_for_user at hsucc ⊢
  dsimp only at hsucc ⊢
  cases hfind : db.findActive uid with
  | some r0 =>
      by_cases hnm : (db.peers.any fun r =>
          r.rowId != r0.rowId && r.peer_name == generate_peer_name username uid) = true
      · rw [show Db.stage_peer_record db (generate_peer_name username uid) uid
            (username.getD "") (flowTargetExpire db now uid tk) "paid" tk none none now =
            (db, none) by
          unfold Db.stage_peer_record
          rw [hfind]
          simp [hnm]] at hsucc
        simp at hsucc
      · simp only [Bool.not_eq_true] at hnm
        rw [stage_eq_update db (generate_peer_name username uid) uid (username.getD "")
          (flowTargetExpire db now uid tk) "paid" tk none none now r0 hfind hnm]
          at hsucc ⊢
        dsimp only at hsucc ⊢
        cases ap with
        | raised => rw [compensate_success] at hsucc; exact absurd hsucc Bool.false_ne_true
        | noId => rw [compensate_success] at hsucc; exact absurd hsucc Bool.false_ne_true
        | ok pid =>
            dsimp only [create_restrict_job] at hsucc ⊢
            cases ja with
            | raised =>
                rw [compensate_success] at hsucc
                exact absurd hsucc Bool.false_ne_true
            | statusFalse =>
                rw [compensate_success] at hsucc
                exact absurd hsucc Bool.false_ne_true
            | ok =>
                by_cases hfg : ((db.peers.map (fun r =>
                    if r.rowId == r0.rowId then
                      peerUpdateSet (generate_peer_name username uid)
                        (Ident.pending db.nextTag) (Ident.pending (db.nextTag + 1))
                        (username.getD "") (flowTargetExpire db now uid tk) "paid"
                        tk none none r
                    else r)).any fun r =>
                      !(stageMatches uid
                        { mode := .update
                          pending_peer_id := Ident.pending db.nextTag
                          pending_job_id := Ident.pending (db.nextTag + 1)
                          previous := some (snapshotOf r0) } r) &&
                      (r.peer_name == generate_peer_name username uid ||
                        r.peer_id == Ident.real pid || r.job_id == Ident.real jld)) = true
                · rw [finalize_eq_fail _ _ _ _ _ _ _ _ _ _ _ _ hfg] at hsucc ⊢
                  dsimp only at hsucc ⊢
                  rw [if_neg (by simp)] at hsucc
                  rw [compensate_success] at hsucc
                  exact absurd hsucc Bool.false_ne_true
                · simp only [Bool.not_eq_true] at hfg
                  rw [finalize_eq_ok _ _ _ _ _ _ _ _ _ _ _ _ hfg] at hsucc ⊢
                  dsimp only at hsucc ⊢
                  rw [if_pos (anyMatches_after_stage_update db uid r0 _ _ _ _ _ _ _
                    db.nextTag _ hfind)] at hsucc ⊢
                  cases cjk with
                  | false =>
                      rw [if_neg (by simp)] at hsucc
                      rw [compensate_success] at hsucc
                      exact absurd hsucc Bool.false_ne_true
                  | true =>
                      rw [if_pos rfl] at hsucc ⊢
                      rw [downloadPhase_db, downloadPhase_trace]
                      have hprops := findActive_some_props hfind
                      refine ⟨peerUpdateSet (generate_peer_name username uid)
                        (Ident.real pid) (Ident.real jld) (username.getD "")
                        (normalizeExpire now
                          (DateArg.parsed (flowTargetExpire db now uid tk)))
                        "paid" tk none none
                        (peerUpdateSet (generate_peer_name username uid)
                          (Ident.pending db.nextTag) (Ident.pending (db.nextTag + 1))
                          (username.getD "") (flowTargetExpire db now uid tk) "paid"
                          tk none none r0), ?_, rfl, ?_⟩
                      · show Db.findActive _ uid = _
                        unfold Db.findActive
                        dsimp only
                        rw [List.map_map]
                        rw [find?_map_pres db.peers _ _ (by
                          intro r
                          simp only [Function.comp_apply]
                          by_cases hc1 : (r.rowId == r0.rowId) = true
                          · rw [if_pos hc1]
                            by_cases hc2 : stageMatches uid
                                { mode := .update
                                  pending_peer_id := Ident.pending db.nextTag
                                  pending_job_id := Ident.pending (db.nextTag + 1)
                                  previous := some (snapshotOf r0) }
                                (peerUpdateSet (generate_peer_name username uid)
                                  (Ident.pending db.nextTag)
                                  (Ident.pending (db.nextTag + 1)) (username.getD "")
                                  (flowTargetExpire db now uid tk) "paid" tk none
                                  none r) = true
                            · rw [if_pos hc2]
                              rfl
                            · rw [if_neg hc2]
                              rfl
                          · rw [if_neg hc1]
                            by_cases hc2 : stageMatches uid
                                { mode := .update
                                  pending_peer_id := Ident.pending db.nextTag
                                  pending_job_id := Ident.pending (db.nextTag + 1)
                                  previous := some (snapshotOf r0) } r = true
                            · rw [if_pos hc2]
                              rfl
                            · rw [if_neg hc2])]
                        rw [show db.peers.find?
                            (fun r => r.telegram_user_id == uid && r.is_active) = some r0
                          from hfind]
                        rw [Option.map_some']
                        simp only [Function.comp_apply]
                        rw [if_pos (show (r0.rowId == r0.rowId) = true by simp)]
                        rw [if_pos (stageMatches_staged hprops.1 hprops.2)]
                      · intro j hj
                        rw [List.mem_singleton] at hj
                        subst hj
                        rfl
  | none =>
      by_cases hnm : (db.peers.any fun r =>
          r.peer_name == generate_peer_name username uid) = true
      · rw [show Db.stage_peer_record db (generate_peer_name username uid) uid
            (username.getD "") (flowTargetExpire db now uid tk) "paid" tk none none now =
            (db, none) by
          unfold Db.stage_peer_record
          rw [hfind]
          simp [hnm]] at hsucc
        simp at hsucc
      · simp only [Bool.not_eq_true] at hnm
        rw [stage_eq_create db (generate_peer_name username uid) uid (username.getD "")
          (flowTargetExpire db now uid tk) "paid" tk none none now hfind hnm]
          at hsucc ⊢
        dsimp only at hsucc ⊢
        cases ap with
        | raised => rw [compensate_success] at hsucc; exact absurd hsucc Bool.false_ne_true
        | noId => rw [compensate_success] at hsucc; exact absurd hsucc Bool.false_ne_true
        | ok pid =>
            dsimp only [create_restrict_job] at hsucc ⊢
            cases ja with
            | raised =>
                rw [compensate_success] at hsucc
                exact absurd hsucc Bool.false_ne_true
            | statusFalse =>
                rw [compensate_success] at hsucc
                exact absurd hsucc Bool.false_ne_true
            | ok =>
                by_cases hfg : (((db.peers ++
                    [stageInsertRow db.nextRowId (generate_peer_name username uid)
                      (Ident.pending db.nextTag) (Ident.pending (db.nextTag + 1)) uid
                      (username.getD "") now (flowTargetExpire db now uid tk) "paid"
                      tk none none]).any fun r =>
                      !(stageMatches uid
                        { mode := .create
                          pending_peer_id := Ident.pending db.nextTag
                          pending_job_id := Ident.pending (db.nextTag + 1)
                          previous := none } r) &&
                      (r.peer_name == generate_peer_name username uid ||
                        r.peer_id == Ident.real pid || r.job_id == Ident.real jld)) = true)
                · rw [finalize_eq_fail _ _ _ _ _ _ _ _ _ _ _ _ hfg] at hsucc ⊢
                  dsimp only at hsucc ⊢
                  rw [if_neg (by simp)] at hsucc
                  rw [compensate_success] at hsucc
                  exact absurd hsucc Bool.false_ne_true
                · simp only [Bool.not_eq_true] at hfg
                  rw [finalize_eq_ok _ _ _ _ _ _ _ _ _ _ _ _ hfg] at hsucc ⊢
                  dsimp only at hsucc ⊢
                  rw [if_pos (by
                    rw [List.any_append, Bool.or_eq_true]
                    right
                    simp [stageMatches_insertRow])] at hsucc ⊢
                  cases cjk with
                  | false =>
                      rw [if_neg (by simp)] at hsucc
                      rw [compensate_success] at hsucc
                      exact absurd hsucc Bool.false_ne_true
                  | true =>
                      rw [if_pos rfl] at hsucc ⊢
                      rw [downloadPhase_db, downloadPhase_trace]
                      refine ⟨peerUpdateSet (generate_peer_name username uid)
                        (Ident.real pid) (Ident.real jld) (username.getD "")
                        (normalizeExpire now
                          (DateArg.parsed (flowTargetExpire db now uid tk)))
                        "paid" tk none none
                        (stageInsertRow db.nextRowId (generate_peer_name username uid)
                          (Ident.pending db.nextTag) (Ident.pending (db.nextTag + 1))
                          uid (username.getD "") now (flowTargetExpire db now uid tk)
                          "paid" tk none none), ?_, rfl, ?_⟩
                      · show Db.findActive _ uid = _
                        unfold Db.findActive
                        dsimp only
                        rw [List.map_append, List.find?_append]
                        rw [find?_map_pres db.peers _ _ (by
                          intro r
                          by_cases hc2 : stageMatches uid
                              { mode := .create
                                pending_peer_id := Ident.pending db.nextTag
                                pending_job_id := Ident.pending (db.nextTag + 1)
                                previous := none } r = true
                          · rw [if_pos hc2]
                            rfl
                          · rw [if_neg hc2])]
                        rw [show db.peers.find?
                            (fun r => r.telegram_user_id == uid && r.is_active) = none
                          from hfind]
                        rw [List.map_cons, List.map_nil]
                        rw [if_pos stageMatches_insertRow]
                        rw [List.find?_cons_of_pos _ (by
                          simp [peerUpdateSet, stageInsertRow])]
                        rfl
                      · intro j hj
                        rw [List.mem_singleton] at hj
                        subst hj
                        rfl

/-- Witness for claim C6: the sample store and all-success environment;
the stored expiry equals the effective (normalized) expiry bound to the
issued job. -/
theorem claim_C6_witness :
    (create_or_restore_peer_for_user sampleDb 0 7 (some "alice") (some "30_days")
      sampleEnv).result.success = true ∧
    (∃ row,
      (create_or_restore_peer_for_user sampleDb 0 7 (some "alice") (some "30_days")
        sampleEnv).db.findActive 7 = some row ∧
      row.expire_date = normalizeExpire 0 (DateArg.parsed (flowTargetExpire sampleDb 0 7
        (some "30_days"))) ∧
      ∀ j ∈ (create_or_restore_peer_for_user sampleDb 0 7 (some "alice")
        (some "30_days") sampleEnv).trace.jobsIssued, j.value = row.expire_date) :=
  ⟨by decide,
    (claim_C6_effective_expiry sampleDb 0 7 (some "alice") (some "30_days") sampleEnv
      (by decide)).2.2.2⟩

/-- The retry loop consults only the attempts in its schedule. -/
theorem firstNonEmptyConfig_congr (d d' : Nat → DownloadOutcome) (L : List Nat)
    (h : ∀ i ∈ L, d i = d' i) :
    firstNonEmptyConfig d L = firstNonEmptyConfig d' L := by
  induction L with
  | nil => rfl
  | cons i t ih =>
      unfold firstNonEmptyConfig
      rw [h i (List.mem_cons_self i t)]
      cases d' i with
      | raised => exact ih (fun j hj => h j (List.mem_cons_of_mem _ hj))
      | ok s =>
          dsimp only
          by_cases hs : (s == "") = true
          · rw [if_pos hs, if_pos hs]
            exact ih (fun j hj => h j (List.mem_cons_of_mem _ hj))
          · rw [if_neg hs, if_neg hs]

/-- When every scheduled attempt raises or yields empty content, the
loop produces nothing. -/
theorem firstNonEmptyConfig_none (d : Nat → DownloadOutcome) (L : List Nat)
    (h : ∀ i ∈ L, d i = DownloadOutcome.raised ∨ d i = DownloadOutcome.ok "") :
    firstNonEmptyConfig d L = none := by
  induction L with
  | nil => rfl
  | cons i t ih =>
      unfold firstNonEmptyConfig
      rcases h i (List.mem_cons_self i t) with hi | hi <;> rw [hi]
      · exact ih (fun j hj => h j (List.mem_cons_of_mem _ hj))
      · dsimp only
        rw [if_pos (by simp)]
        exact ih (fun j hj => h j (List.mem_cons_of_mem _ hj))

/-- The loop never returns empty content. -/
theorem firstNonEmptyConfig_ne_empty (d : Nat → DownloadOutcome) (L : List Nat)
    (s : String) (h : firstNonEmptyConfig d L = some s) : s ≠ "" := by
  induction L with
  | nil => exact absurd h (by simp [firstNonEmptyConfig])
  | cons i t ih =>
      unfold firstNonEmptyConfig at h
      cases hd : d i with
      | raised =>
          rw [hd] at h
          exact ih h
      | ok s' =>
          rw [hd] at h
          dsimp only at h
          by_cases hs : (s' == "") = true
          · rw [if_pos hs] at h
            exact ih h
          · rw [if_neg hs] at h
            rw [Option.some.injEq] at h
            subst h
            simpa using hs

/-- Claim C8: after a successful create/restore, the config download is
retried on a bounded schedule of exactly the 10 scheduled attempts (the
result depends on no attempt beyond the tenth); when every attempt
raises or returns empty content, the phase returns the terminal
timeout-class failure with `success = false` and no artifact; and a
produced artifact is never silently empty — `config = some s` implies
success with non-empty `s`. -/
theorem claim_C8_download_retry :
    (∀ d d' : Nat → DownloadOutcome, (∀ i, i < 10 → d i = d' i) →
      download_with_retries d = download_with_retries d') ∧
    (∀ (db : Db) (t : Trace) (d : Nat → DownloadOutcome),
      (∀ i, i < 10 → d i = DownloadOutcome.raised ∨ d i = DownloadOutcome.ok "") →
      downloadPhase db t d =
        { db := db, trace := t
          result := { success := false
                      message := "Не удалось скачать конфигурацию (превышено время ожидания 20с)"
                      config := none } }) ∧
    (∀ (db : Db) (t : Trace) (d : Nat → DownloadOutcome) (s : String),
      (downloadPhase db t d).result.config = some s →
        (downloadPhase db t d).result.success = true ∧ s ≠ "") := by
  refine ⟨?_, ?_, ?_⟩
  · intro d d' h
    exact firstNonEmptyConfig_congr d d' (List.range 10)
      (fun i hi => h i (List.mem_range.mp hi))
  · intro db t d h
    unfold downloadPhase download_with_retries
    rw [firstNonEmptyConfig_none d (List.range 10)
      (fun i hi => h i (List.mem_range.mp hi))]
  · intro db t d s h
    unfold downloadPhase at h ⊢
    cases hdw : download_with_retries d with
    | none =>
        rw [hdw] at h
        exact Option.noConfusion h
    | some s' =>
        rw [hdw] at h
        dsimp only at h ⊢
        injection h with h
        subst h
        refine ⟨rfl, ?_⟩
        unfold download_with_retries at hdw
        exact firstNonEmptyConfig_ne_empty d (List.range 10) s' hdw

/-- Witness for claim C8: ten raising attempts produce the terminal
timeout failure with no artifact. -/
theorem claim_C8_witness :
    downloadPhase sampleDb { addPeerCalls := [], jobsIssued := [], deletePeerCalls := [] }
      (fun _ => DownloadOutcome.raised) =
      { db := sampleDb
        trace := { addPeerCalls := [], jobsIssued := [], deletePeerCalls := [] }
        result := { success := false
                    message := "Не удалось скачать конфигурацию (превышено время ожидания 20с)"
                    config := none } } :=
  claim_C8_download_retry.2.1 sampleDb _ _ (fun _ _ => Or.inl rfl)

/-- Marking a user flags all of that user's active rows. -/
theorem mark_flags (db : Db) (u : Int) :
    flaggedAll (db.mark_expired_notification_sent u).1 u := by
  intro r hr hu ha
  unfold Db.mark_expired_notification_sent at hr
  dsimp only at hr
  rw [List.mem_map] at hr
  obtain ⟨q, hq, hqr⟩ := hr
  by_cases hc : (q.telegram_user_id == u && q.is_active) = true
  · rw [if_pos hc] at hqr
    subst hqr
    rfl
  · rw [if_neg hc] at hqr
    subst hqr
    exact absurd (by simp [hu, ha]) hc

/-- Marking any user keeps previously flagged users flagged. -/
theorem mark_flags_pres (db : Db) (u v : Int) (h : flaggedAll db u) :
    flaggedAll (db.mark_expired_notification_sent v).1 u := by
  intro r hr hu ha
  unfold Db.mark_expired_notification_sent at hr
  dsimp only at hr
  rw [List.mem_map] at hr
  obtain ⟨q, hq, hqr⟩ := hr
  by_cases hc : (q.telegram_user_id == v && q.is_active) = true
  · rw [if_pos hc] at hqr
    subst hqr
    rfl
  · rw [if_neg hc] at hqr
    subst hqr
    exact h q hq hu ha

/-- The sweep's per-peer fold keeps flagged users flagged. -/
theorem sweep_fold_pres (sendOk : Int → Bool) (u : Int) (l : List PeerRow)
    (acc : Db × List Int) (h : flaggedAll acc.1 u) :
    flaggedAll (l.foldl (fun acc peer =>
      if sendOk peer.telegram_user_id then
        ((acc.1.mark_expired_notification_sent peer.telegram_user_id).1,
         acc.2 ++ [peer.telegram_user_id])
      else acc) acc).1 u := by
  induction l generalizing acc with
  | nil => exact h
  | cons a t ih =>
      rw [List.foldl_cons]
      apply ih
      by_cases hs : sendOk a.telegram_user_id = true
      · rw [if_pos hs]
        exact mark_flags_pres _ u _ h
      · rw [if_neg hs]
        exact h

/-- When some processed peer belongs to `u` and the send to `u`
succeeds, the fold leaves `u` flagged. -/
theorem sweep_fold_marks_user (sendOk : Int → Bool) (u : Int) (l : List PeerRow)
    (acc : Db × List Int) (hmem : ∃ p ∈ l, p.telegram_user_id = u)
    (hs : sendOk u = true) :
    flaggedAll (l.foldl (fun acc peer =>
      if sendOk peer.telegram_user_id then
        ((acc.1.mark_expired_notification_sent peer.telegram_user_id).1,
         acc.2 ++ [peer.telegram_user_id])
      else acc) acc).1 u := by
  induction l generalizing acc with
  | nil =>
      obtain ⟨p, hp, _⟩ := hmem
      exact absurd hp (List.not_mem_nil p)
  | cons a t ih =>
      rw [List.foldl_cons]
      by_cases hau : a.telegram_user_id = u
      · apply sweep_fold_pres
        rw [if_pos (by rw [hau]; exact hs)]
        rw [hau]
        exact mark_flags _ u
      · obtain ⟨p, hp, hpu⟩ := hmem
        rcases List.mem_cons.mp hp with rfl | hp'
        · exact absurd hpu hau
        · exact ih _ ⟨p, hp', hpu⟩

/-- Every user the fold marks comes from the processed snapshot. -/
theorem sweep_fold_marks_sub (sendOk : Int → Bool) (l : List PeerRow)
    (acc : Db × List Int) (x : Int)
    (hx : x ∈ (l.foldl (fun acc peer =>
      if sendOk peer.telegram_user_id then
        ((acc.1.mark_expired_notification_sent peer.telegram_user_id).1,
         acc.2 ++ [peer.telegram_user_id])
      else acc) acc).2) :
    x ∈ acc.2 ∨ ∃ p ∈ l, p.telegram_user_id = x := by
  induction l generalizing acc with
  | nil => exact Or.inl hx
  | cons a t ih =>
      rw [List.foldl_cons] at hx
      rcases ih _ hx with hacc | ⟨p, hp, hpx⟩
      · by_cases hs : sendOk a.telegram_user_id = true
        · rw [if_pos hs] at hacc
          dsimp only at hacc
          rcases List.mem_append.mp hacc with h1 | h2
          · exact Or.inl h1
          · rw [List.mem_singleton] at h2
            exact Or.inr ⟨a, List.mem_cons_self a t, h2.symm⟩
        · rw [if_neg hs] at hacc
          exact Or.inl hacc
      · exact Or.inr ⟨p, List.mem_cons_of_mem _ hp, hpx⟩

/-- A flagged user is never selected by `get_expired_peers`. -/
theorem get_expired_not_flagged (db : Db) (now : Int) (u : Int)
    (h : flaggedAll db u) :
    ∀ q ∈ db.get_expired_peers now, q.telegram_user_id ≠ u := by
  intro q hq hqu
  unfold Db.get_expired_peers at hq
  rw [List.mem_filter] at hq
  obtain ⟨hmem, hcond⟩ := hq
  simp only [Bool.and_eq_true, Bool.not_eq_true'] at hcond
  exact absurd (h q hmem hqu hcond.1.1) (by simp [hcond.2])

/-- `extend_access` clears both notification flags on the user's active
rows (vacuously when the user has none). -/
theorem extend_clears_flags (db' : Db) (now' uid days : Int) :
    ∀ q ∈ (db'.extend_access now' uid days).1.peers, q.telegram_user_id = uid →
      q.is_active = true →
      q.notification_sent = false ∧ q.expired_notification_sent = false := by
  intro q hq hqu hqa
  cases hfind : db'.findActive uid with
  | none =>
      rw [extend_eq_none db' now' uid days hfind] at hq
      have hnone := List.find?_eq_none.mp hfind q hq
      exact absurd (by simp [hqu, hqa]) hnone
  | some row =>
      rw [extend_eq_some db' now' uid days row hfind] at hq
      dsimp only at hq
      rw [List.mem_map] at hq
      obtain ⟨p, hp, hpq⟩ := hq
      by_cases hc : (p.telegram_user_id == uid && p.is_active) = true
      · rw [if_pos hc] at hpq
        subst hpq
        exact ⟨rfl, rfl⟩
      · rw [if_neg hc] at hpq
        subst hpq
        exact absurd (by simp [hqu, hqa]) hc

/-- Claim C9: once an active paid grant past its expiry has been
notified (send succeeded, flag set) by one sweep pass, a later sweep
pass selects that user zero times and never marks them again — the
notification and `mark_expired_notification_sent` happen at most once —
until `extend_access`, which (third conjunct) clears both notification
flags on the user's active rows. -/
theorem claim_C9_one_shot_notification (db : Db) (now1 now2 : Int)
    (sendOk1 sendOk2 : Int → Bool) (u : Int) (r : PeerRow)
    (hr : r ∈ db.peers) (hu : r.telegram_user_id = u) (hact : r.is_active = true)
    (_hpaid : r.payment_status = "paid") (hexp : r.expire_date < now1)
    (hflag : r.expired_notification_sent = false) (hsend : sendOk1 u = true) :
    (∀ q ∈ Db.get_expired_peers (sweep_expired_once db now1 sendOk1).1 now2,
      q.telegram_user_id ≠ u) ∧
    u ∉ (sweep_expired_once (sweep_expired_once db now1 sendOk1).1 now2 sendOk2).2 ∧
    (∀ (db' : Db) (now' uid days : Int),
      ∀ q ∈ (db'.extend_access now' uid days).1.peers, q.telegram_user_id = uid →
        q.is_active = true →
        q.notification_sent = false ∧ q.expired_notification_sent = false) := by
  have hsel : r ∈ db.get_expired_peers now1 := by
    unfold Db.get_expired_peers
    rw [List.mem_filter]
    exact ⟨hr, by simp [hact, hexp, hflag]⟩
  have hflagged : flaggedAll (sweep_expired_once db now1 sendOk1).1 u := by
    unfold sweep_expired_once
    exact sweep_fold_marks_user sendOk1 u _ _ ⟨r, hsel, hu⟩ hsend
  refine ⟨get_expired_not_flagged _ now2 u hflagged, ?_,
    fun db' now' uid days => extend_clears_flags db' now' uid days⟩
  intro hmem
  unfold sweep_expired_once at hmem
  rcases sweep_fold_marks_sub sendOk2 _ _ u hmem with h0 | ⟨p, hp, hpu⟩
  · exact absurd h0 (List.not_mem_nil u)
  · exact (get_expired_not_flagged _ now2 u hflagged p hp) hpu

/-- Witness for claim C9 at a concrete expired grant: the second sweep
selects user 9 zero times and never re-marks them, and extends clear the
flags. -/
theorem claim_C9_witness :
    (∀ q ∈ Db.get_expired_peers (sweep_expired_once expiredDb 20 (fun _ => true)).1 30,
      q.telegram_user_id ≠ 9) ∧
    (9 : Int) ∉ (sweep_expired_once (sweep_expired_once expiredDb 20 (fun _ => true)).1
      30 (fun _ => true)).2 ∧
    (∀ (db' : Db) (now' uid days : Int),
      ∀ q ∈ (db'.extend_access now' uid days).1.peers, q.telegram_user_id = uid →
        q.is_active = true →
        q.notification_sent = false ∧ q.expired_notification_sent = false) :=
  claim_C9_one_shot_notification expiredDb 20 30 (fun _ => true) (fun _ => true) 9
    expiredRow (by decide) (by decide) (by decide) (by decide) (by decide) (by decide)
    (by decide)

/-- Claim C10: every request to the payment-webhook endpoint is
answered with HTTP status 200 — an absent or invalid signature (only
logged), an unparseable body, a missing object, an undeterminable event
type, an unknown event, and an unhandled internal exception all yield a
200 response, so the provider never re-delivers based on HTTP status. -/
theorem claim_C10_webhook_always_200 (req : WebhookReq) :
    (yookassa_webhook req).statusCode = 200 := by
  obtain ⟨sig, parsed, ru⟩ := req
  cases ru with
  | true => rfl
  | false =>
      cases parsed with
      | none => rfl
      | some w =>
          obtain ⟨ev, eta, st, od, pd, ri⟩ := w
          unfold yookassa_webhook
          dsimp only
          cases od <;> cases pd <;> cases ri <;>
            simp [apply_ite WebhookResp.statusCode]

end WGBot
